import Mathlib

/-!
Shallow embedding of the statsd gauge-metric aggregation pipeline
(`GaugeMetricProducer` and the parts of `MetricProducer` it uses),
translated from the C++ sources, together with theorems settling the
specification claims about bucket flushing, guardrails, sampling,
pull handling and report serialization.

Machine integers (`int64_t`, `size_t`) are modelled as `Int` / `Nat`;
C++ integer division truncates toward zero, which is `Int.tdiv`.
C++ `std::unordered_map` values are modelled as association lists
whose operations mirror the source's `find` / `operator[]` /
`push_back` uses; key sets stay duplicate-free by construction.
-/

namespace Statsd

/-- The typed payload of one atom field (`Value` union in the source).
Float and double payloads are carried as uninterpreted bit patterns:
no claim inspects floating-point arithmetic. -/
inductive Value where
  | vInt (v : Int)
  | vLong (v : Int)
  | vFloat (bits : Nat)
  | vDouble (bits : Nat)
  | vString (s : String)
  | vStorage (bytes : List Nat)
deriving DecidableEq

/-- Modelled from the spec: a field path is a single numeric word
(8 bits atom-tag plus three depth slots); the structure `Field` of
`FieldValue.h` is not under src/. -/
abbrev Field := Nat

/-- A compiled field selector leaf: a path word plus a mask
(`Matcher` of `matcher_util.h`). -/
structure Matcher where
  mMatcher : Nat
  mMask : Nat
deriving DecidableEq

/-- Modelled from the spec: `Field::matches` of `FieldValue.h` is not
under src/; the spec defines the test as
`(eventPath & matcher.mask) == matcher.path`. -/
def fieldMatches (f : Field) (m : Matcher) : Bool :=
  (f &&& m.mMask) == m.mMatcher

/-- One (path, value) pair of an atom (`FieldValue`). -/
structure FieldValue where
  mField : Field
  mValue : Value
deriving DecidableEq

/-- Canonical ordered sequence of field values (`HashableDimensionKey`). -/
structure HashableDimensionKey where
  values : List FieldValue
deriving DecidableEq

/-- Pair of what-dimension and state-values key (`MetricDimensionKey`). -/
structure MetricDimensionKey where
  dimensionKeyInWhat : HashableDimensionKey
  stateValuesKey : HashableDimensionKey
deriving DecidableEq

/-- A sampled atom snapshot: projected field values plus truncated
elapsed timestamp (`GaugeAtom`). -/
structure GaugeAtom where
  mFields : List FieldValue
  mElapsedTimestampNs : Int
deriving DecidableEq

/-- Key used to de-duplicate identical atom snapshots at flush
(`AtomDimensionKey`: atom id plus the atom's field values). -/
structure AtomDimensionKey where
  atomId : Int
  atomFieldValues : HashableDimensionKey
deriving DecidableEq

/-- A closed gauge bucket (`GaugeBucket`): bounds plus atoms grouped by
`AtomDimensionKey` with their observation timestamps. -/
structure GaugeBucket where
  mBucketStartNs : Int
  mBucketEndNs : Int
  mAggregatedAtoms : List (AtomDimensionKey × List Int)
deriving DecidableEq

/-- Reasons a bucket's data may be dropped (`BucketDropReason`);
only the constructors the gauge producer uses are listed. -/
inductive BucketDropReason where
  | BUCKET_TOO_SMALL
  | CONDITION_UNKNOWN
  | PULL_FAILED
  | PULL_DELAYED
  | EVENT_IN_WRONG_BUCKET
  | NO_DATA
deriving DecidableEq

/-- A drop record attached to a skipped bucket (`DropEvent`). -/
structure DropEvent where
  reason : BucketDropReason
  dropTimeNs : Int
deriving DecidableEq

/-- Metadata of a bucket whose data was dropped (`SkippedBucket`). -/
structure SkippedBucket where
  bucketStartTimeNs : Int
  bucketEndTimeNs : Int
  dropEvents : List DropEvent
deriving DecidableEq

/-- `SkippedBucket::reset()`. -/
def SkippedBucket.reset : SkippedBucket :=
  { bucketStartTimeNs := 0, bucketEndTimeNs := 0, dropEvents := [] }

/-- `ConditionState`. -/
inductive ConditionState where
  | kTrue
  | kFalse
  | kUnknown
deriving DecidableEq

/-- `GaugeMetric::SamplingType` from the config proto. -/
inductive SamplingType where
  | RANDOM_ONE_SAMPLE
  | ALL_CONDITION_CHANGES
  | FIRST_N_SAMPLES
  | CONDITION_CHANGE_TO_TRUE
deriving DecidableEq

/-- Result of an asynchronous pull (`PullResult`). -/
inductive PullResult where
  | PULL_RESULT_SUCCESS
  | PULL_RESULT_FAIL
  | PULL_RESULT_PENDING
deriving DecidableEq

/-- Match verdict of the event-matcher wizard (`MatchingState`). -/
inductive MatchingState where
  | kMatched
  | kNotMatched
  | kNotComputed
deriving DecidableEq

/-- A parsed stats log entry (`LogEvent`): tag id, elapsed timestamp
and the ordered typed field list. -/
structure LogEvent where
  tagId : Int
  elapsedTimestampNs : Int
  values : List FieldValue
deriving DecidableEq

/-- Calls recorded against the process-wide statistics sink
(`StatsdStats`), in emission order. -/
inductive StatsEvent where
  | pullDelay (tagId : Int) (delayNs : Int)
  | pullExceedMaxDelay (tagId : Int)
  | metricDimensionSize (metricId : Int) (newTupleCount : Nat)
  | hardDimensionLimitReached (metricId : Int)
  | bucketDropped (metricId : Int)
  | bucketCount (metricId : Int)
deriving DecidableEq

/-- One `detectAndDeclareAnomaly` call delivered to an anomaly tracker. -/
structure AnomalyCall where
  eventTimeNs : Int
  bucketNum : Int
  metricId : Int
  key : MetricDimensionKey
  value : Int
deriving DecidableEq

end Statsd

namespace Statsd

/-- Association-list lookup, standing in for `unordered_map::find`. -/
def lookupList {α β : Type} [DecidableEq α] : List (α × β) → α → Option β
  | [], _ => none
  | (k, v) :: rest, key => if k = key then some v else lookupList rest key

/-- The list stored at a key, defaulting to empty: the value
`unordered_map::operator[]` exposes for reading. -/
def getAtKey {α β : Type} [DecidableEq α] (m : List (α × List β)) (k : α) : List β :=
  (lookupList m k).getD []

/-- `m[k].push_back(v)`: append `v` to the list at `k`, creating the
entry when absent. -/
def pushAt {α β : Type} [DecidableEq α] : List (α × List β) → α → β → List (α × List β)
  | [], k, v => [(k, [v])]
  | (k', vs) :: rest, k, v =>
      if k' = k then (k', vs ++ [v]) :: rest else (k', vs) :: pushAt rest k v

/-- The entry-creating side effect of reading `m[k]`: insert an empty
list at `k` when the key is absent. -/
def ensureKey {α β : Type} [DecidableEq α] : List (α × List β) → α → List (α × List β)
  | [], k => [(k, [])]
  | (k', vs) :: rest, k =>
      if k' = k then (k', vs) :: rest else (k', vs) :: ensureKey rest k

/-- `m[k] = v`: overwrite the value at a key, inserting when absent. -/
def setAt {α β : Type} [DecidableEq α] : List (α × β) → α → β → List (α × β)
  | [], k, v => [(k, v)]
  | (k', v') :: rest, k, v =>
      if k' = k then (k, v) :: rest else (k', v') :: setAt rest k v

end Statsd

namespace Statsd

/-- The mutable and configuration state of one gauge metric producer
(`GaugeMetricProducer` plus the `MetricProducer` base fields it uses).
`mAnomalyTrackerCount` is the number of attached anomaly trackers;
the trackers themselves are external and receive the calls this model
emits. -/
structure GaugeMetricProducer where
  mMetricId : Int
  mTimeBaseNs : Int
  mBucketSizeNs : Int
  mCurrentBucketStartTimeNs : Int
  mCurrentBucketNum : Int
  mCondition : ConditionState
  mConditionSliced : Bool
  mIsActive : Bool
  mPullTagId : Int
  mTriggerAtomId : Int
  mAtomId : Int
  mMinBucketSizeNs : Int
  mSamplingType : SamplingType
  mMaxPullDelayNs : Int
  mDimensionSoftLimit : Nat
  mDimensionHardLimit : Nat
  mGaugeAtomsPerDimensionLimit : Nat
  mSamplingPercentage : Nat
  mShouldUseNestedDimensions : Bool
  mFieldMatchers : List Matcher
  mDimensionsInWhat : List Matcher
  mAnomalyTrackerCount : Nat
  mCurrentSlicedBucket : List (MetricDimensionKey × List GaugeAtom)
  mCurrentSlicedBucketForAnomaly : List (MetricDimensionKey × Int)
  mPastBuckets : List (MetricDimensionKey × List GaugeBucket)
  mSkippedBuckets : List SkippedBucket
  mCurrentSkippedBucket : SkippedBucket
  mDimensionGuardrailHit : Bool
  mHasHitGuardrail : Bool
deriving DecidableEq

/-- Result of one producer operation: the successor state plus the
calls emitted to the statistics sink and to the anomaly trackers. -/
structure GaugeStepOut where
  st : GaugeMetricProducer
  stats : List StatsEvent
  anomaly : List AnomalyCall
deriving DecidableEq

/-- Modelled from the spec: the external collaborators of a producer
(event-matcher wizard, dimension-key extraction and condition query of
the base-class `onMatchedLogEventLocked`, the probabilistic
push-sampling draw `shouldKeepRandomSample`, the timestamp truncation
`truncateTimestampIfNecessary`, the puller manager and the elapsed
realtime clock), none of which are implemented under src/. -/
structure Env where
  matchEvent : LogEvent → MatchingState × Option LogEvent
  extractKey : LogEvent → MetricDimensionKey
  slicedCondition : LogEvent → Bool
  keepSample : LogEvent → Bool
  truncateTimestamp : LogEvent → Int
  pullResult : Int → Option (List LogEvent)
  nowNs : Int

/-- `mIsPulled`, set in the constructor as `pullTagId != -1`. -/
def isPulled (p : GaugeMetricProducer) : Bool :=
  p.mPullTagId ≠ -1

/-- Modelled from the spec: `isRandomNSamples` of
`GaugeMetricProducer.h` is not under src/; per the spec's sampling-mode
taxonomy it holds for the random-one-sample and first-n-samples modes. -/
def isRandomNSamples (p : GaugeMetricProducer) : Bool :=
  p.mSamplingType = SamplingType.RANDOM_ONE_SAMPLE ∨
    p.mSamplingType = SamplingType.FIRST_N_SAMPLES

/-- `MetricProducer::getCurrentBucketEndTimeNs`. -/
def getCurrentBucketEndTimeNs (p : GaugeMetricProducer) : Int :=
  p.mTimeBaseNs + (p.mCurrentBucketNum + 1) * p.mBucketSizeNs

/-- `MetricProducer::getBucketNumFromEndTimeNs`. -/
def getBucketNumFromEndTimeNs (p : GaugeMetricProducer) (endNs : Int) : Int :=
  (endNs - p.mTimeBaseNs).tdiv p.mBucketSizeNs - 1

/-- Modelled from the spec: `NanoToMillis` of `stats_log_util.h` is
not under src/; bucket times are emitted as millisecond-truncated
integers. -/
def nanoToMillis (ns : Int) : Int :=
  ns.tdiv 1000000

/-- Modelled from the spec: `MetricProducer::maxDropEventsReached` is
not under src/; the header documents the cap as 10 drop events per
skipped bucket. -/
def maxDropEventsReached (p : GaugeMetricProducer) : Bool :=
  p.mCurrentSkippedBucket.dropEvents.length ≥ 10

/-- Modelled from the spec: `MetricProducer::buildDropEvent` is not
under src/; it packs the reason and the drop time into a `DropEvent`. -/
def buildDropEvent (dropTimeNs : Int) (reason : BucketDropReason) : DropEvent :=
  { reason := reason, dropTimeNs := dropTimeNs }

/-- Modelled from the spec: `filterGaugeValues` of `FieldValue.cpp` is
not under src/; filtering keeps, in event order, the values whose field
matches one of the compiled gauge-field matchers. -/
def filterGaugeValues (matchers : List Matcher) (values : List FieldValue) :
    List FieldValue :=
  values.filter (fun fv => matchers.any (fun m => fieldMatches fv.mField m))

/-- `GaugeMetricProducer::getGaugeFields`: select the gauge fields
(all values when no filter is configured), then trim every field that
also participates in the dimension. -/
def getGaugeFields (p : GaugeMetricProducer) (event : LogEvent) : List FieldValue :=
  let gaugeFields :=
    if p.mFieldMatchers.length > 0 then filterGaugeValues p.mFieldMatchers event.values
    else event.values
  gaugeFields.filter
    (fun fv => ¬ p.mDimensionsInWhat.any (fun m => fieldMatches fv.mField m))

/-- The aggregation loop of `flushCurrentBucketLocked`: group one
dimension's gauge atoms by `AtomDimensionKey`, collecting their
elapsed timestamps in insertion order. -/
def aggregateGaugeAtoms (atomId : Int) (atoms : List GaugeAtom) :
    List (AtomDimensionKey × List Int) :=
  atoms.foldl
    (fun acc atom =>
      pushAt acc ⟨atomId, ⟨atom.mFields⟩⟩ atom.mElapsedTimestampNs)
    []

/-- The numeric projection used by the anomaly path: an INT or LONG
value contributes itself, every other type contributes 0. -/
def gaugeLongValue (v : Value) : Int :=
  match v with
  | Value.vInt i => i
  | Value.vLong l => l
  | _ => 0

/-- `GaugeMetricProducer::updateCurrentSlicedBucketForAnomaly`:
project each non-empty dimension's first atom's first field into the
dimension-to-long map. -/
def updateCurrentSlicedBucketForAnomaly (p : GaugeMetricProducer) :
    List (MetricDimensionKey × Int) :=
  p.mCurrentSlicedBucket.foldl
    (fun acc slice =>
      match slice.2 with
      | [] => acc
      | atom :: _ =>
          let gaugeVal :=
            match atom.mFields with
            | [] => 0
            | fv :: _ => gaugeLongValue fv.mValue
          setAt acc slice.1 gaugeVal)
    p.mCurrentSlicedBucketForAnomaly

/-- `GaugeMetricProducer::hitGuardRailLocked`: returns whether the new
key must be rejected, together with the updated producer (latched
flags) and the statistics calls. -/
def hitGuardRailLocked (p : GaugeMetricProducer) (newKey : MetricDimensionKey) :
    Bool × GaugeMetricProducer × List StatsEvent :=
  if (lookupList p.mCurrentSlicedBucket newKey).isSome then (false, p, [])
  else if p.mCurrentSlicedBucket.length ≥ p.mDimensionSoftLimit then
    let newTupleCount := p.mCurrentSlicedBucket.length + 1
    if newTupleCount > p.mDimensionHardLimit then
      (true,
       { p with mHasHitGuardrail := true, mDimensionGuardrailHit := true },
       [StatsEvent.metricDimensionSize p.mMetricId newTupleCount,
        StatsEvent.hardDimensionLimitReached p.mMetricId])
    else (false, p, [StatsEvent.metricDimensionSize p.mMetricId newTupleCount])
  else (false, p, [])

/-- `GaugeMetricProducer::flushCurrentBucketLocked`: close the current
bucket at `min(eventTimeNs, fullBucketEndTimeNs)`, route it to the
past buckets (large enough) or, while active, to the skipped buckets
with a bucket-too-small drop event under the cap; update the anomaly
projection, then reset the current bucket state. -/
def flushCurrentBucketLocked (p : GaugeMetricProducer)
    (eventTimeNs nextBucketStartTimeNs : Int) : GaugeStepOut :=
  let fullBucketEndTimeNs := getCurrentBucketEndTimeNs p
  let bucketEndTime :=
    if eventTimeNs < fullBucketEndTimeNs then eventTimeNs else fullBucketEndTimeNs
  let isBucketLargeEnough :=
    bucketEndTime - p.mCurrentBucketStartTimeNs ≥ p.mMinBucketSizeNs
  let pastBuckets :=
    if isBucketLargeEnough then
      p.mCurrentSlicedBucket.foldl
        (fun pb slice =>
          pushAt pb slice.1
            { mBucketStartNs := p.mCurrentBucketStartTimeNs
              mBucketEndNs := bucketEndTime
              mAggregatedAtoms := aggregateGaugeAtoms p.mAtomId slice.2 })
        p.mPastBuckets
    else p.mPastBuckets
  let skippedBuckets :=
    if isBucketLargeEnough then p.mSkippedBuckets
    else if p.mIsActive then
      let sb0 :=
        { p.mCurrentSkippedBucket with
            bucketStartTimeNs := p.mCurrentBucketStartTimeNs
            bucketEndTimeNs := bucketEndTime }
      let sb :=
        if maxDropEventsReached p = false then
          { sb0 with
              dropEvents :=
                sb0.dropEvents ++
                  [buildDropEvent eventTimeNs BucketDropReason.BUCKET_TOO_SMALL] }
        else sb0
      p.mSkippedBuckets ++ [sb]
    else p.mSkippedBuckets
  let anomalyProjection :=
    if p.mAnomalyTrackerCount > 0 then
      let updated := updateCurrentSlicedBucketForAnomaly p
      if eventTimeNs > fullBucketEndTimeNs then [] else updated
    else p.mCurrentSlicedBucketForAnomaly
  { st :=
      { p with
          mPastBuckets := pastBuckets
          mSkippedBuckets := skippedBuckets
          mCurrentSlicedBucketForAnomaly := anomalyProjection
          mCurrentSlicedBucket := []
          mCurrentBucketStartTimeNs := nextBucketStartTimeNs
          mCurrentSkippedBucket := SkippedBucket.reset
          mHasHitGuardrail := false }
    stats := [StatsEvent.bucketCount p.mMetricId]
    anomaly := [] }

/-- `GaugeMetricProducer::flushIfNeededLocked`: no-op before the
current bucket's end; otherwise advance over the crossed boundaries,
flushing the current bucket to the start of the last crossed one. -/
def flushIfNeededLocked (p : GaugeMetricProducer) (eventTimeNs : Int) : GaugeStepOut :=
  let currentBucketEndTimeNs := getCurrentBucketEndTimeNs p
  if eventTimeNs < currentBucketEndTimeNs then ⟨p, [], []⟩
  else
    let numBucketsForward :=
      1 + (eventTimeNs - currentBucketEndTimeNs).tdiv p.mBucketSizeNs
    let nextBucketNs :=
      currentBucketEndTimeNs + (numBucketsForward - 1) * p.mBucketSizeNs
    let fc := flushCurrentBucketLocked p eventTimeNs nextBucketNs
    ⟨{ fc.st with mCurrentBucketNum := fc.st.mCurrentBucketNum + numBucketsForward },
     fc.stats, fc.anomaly⟩

/-- `MetricProducer::flushLocked`: flush up to the latest full bucket,
then flush the remaining partial bucket at the event time. -/
def flushLocked (p : GaugeMetricProducer) (eventTimeNs : Int) : GaugeStepOut :=
  let f := flushIfNeededLocked p eventTimeNs
  let fc := flushCurrentBucketLocked f.st eventTimeNs eventTimeNs
  ⟨fc.st, f.stats ++ fc.stats, f.anomaly ++ fc.anomaly⟩

end Statsd

namespace Statsd

/-- The matching loop shared by `pullAndMatchEventsLocked` and
`onDataPulled`: run the event matcher over a pulled batch and feed the
matched (possibly transformed, possibly re-stamped) events to the
given append step, accumulating emitted calls. -/
def runPulled (env : Env) (tf : LogEvent → LogEvent)
    (step : GaugeMetricProducer → LogEvent → GaugeStepOut)
    (start : GaugeStepOut) (allData : List LogEvent) : GaugeStepOut :=
  allData.foldl
    (fun out data =>
      let m := env.matchEvent data
      if m.1 = MatchingState.kMatched then
        let r := step out.st (tf (m.2.getD data))
        ⟨r.st, out.stats ++ r.stats, out.anomaly ++ r.anomaly⟩
      else out)
    start

mutual

/-- `GaugeMetricProducer::pullAndMatchEventsLocked`: gate the pull on
the sampling mode, invoke the puller, record the pull delay, drop the
batch when the delay exceeds the maximum, otherwise match each
returned atom and append it stamped at the pull time.  The `fuel`
bounds the trigger-pull re-entrancy; at fuel 0 the call is a no-op. -/
def pullAndMatchEventsLocked : Nat → Env → GaugeMetricProducer → Int → GaugeStepOut
  | 0, _, p, _ => ⟨p, [], []⟩
  | Nat.succ n, env, p, timestampNs =>
    let triggerPuller :=
      match p.mSamplingType with
      | SamplingType.RANDOM_ONE_SAMPLE => p.mCurrentSlicedBucket.isEmpty
      | SamplingType.CONDITION_CHANGE_TO_TRUE => true
      | SamplingType.FIRST_N_SAMPLES => true
      | _ => false
    if triggerPuller = false then ⟨p, [], []⟩
    else
      match env.pullResult timestampNs with
      | none => ⟨p, [], []⟩
      | some allData =>
        let pullDelayNs := env.nowNs - timestampNs
        let stats0 := [StatsEvent.pullDelay p.mPullTagId pullDelayNs]
        if pullDelayNs > p.mMaxPullDelayNs then
          ⟨p, stats0 ++ [StatsEvent.pullExceedMaxDelay p.mPullTagId], []⟩
        else
          runPulled env (fun e => { e with elapsedTimestampNs := timestampNs })
            (fun q e => onMatchedLogEventLocked n env q e)
            ⟨p, stats0, []⟩ allData

/-- Modelled from the spec: `MetricProducer::onMatchedLogEventLocked`
is not under src/; per the spec's data flow it runs only while the
producer is active, extracts the event's dimension key, queries the
(possibly sliced) condition and hands off to the internal append
path. -/
def onMatchedLogEventLocked : Nat → Env → GaugeMetricProducer → LogEvent → GaugeStepOut
  | 0, _, p, _ => ⟨p, [], []⟩
  | Nat.succ n, env, p, event =>
    if p.mIsActive = false then ⟨p, [], []⟩
    else
      let condition :=
        if p.mConditionSliced then env.slicedCondition event
        else p.mCondition = ConditionState.kTrue
      onMatchedLogEventInternalLocked n env p (env.extractKey event) condition event

/-- `GaugeMetricProducer::onMatchedLogEventInternalLocked`: the append
path — condition gate, push-mode sampling gate, late-event drop,
bucket flush, trigger-atom pull, random-one-sample gate, dimension
guardrail, per-dimension atom cap, append, anomaly notification. -/
def onMatchedLogEventInternalLocked :
    Nat → Env → GaugeMetricProducer → MetricDimensionKey → Bool → LogEvent → GaugeStepOut
  | 0, _, p, _, _, _ => ⟨p, [], []⟩
  | Nat.succ n, env, p, eventKey, condition, event =>
    if condition = false then ⟨p, [], []⟩
    else if p.mPullTagId = -1 ∧ p.mSamplingPercentage < 100 ∧
        env.keepSample event = false then ⟨p, [], []⟩
    else
      let eventTimeNs := event.elapsedTimestampNs
      if eventTimeNs < p.mCurrentBucketStartTimeNs then ⟨p, [], []⟩
      else
        let f := flushIfNeededLocked p eventTimeNs
        let p1 := f.st
        if p1.mTriggerAtomId = event.tagId then
          let r := pullAndMatchEventsLocked n env p1 eventTimeNs
          ⟨r.st, f.stats ++ r.stats, f.anomaly ++ r.anomaly⟩
        else if (lookupList p1.mCurrentSlicedBucket eventKey).isSome ∧
            p1.mSamplingType = SamplingType.RANDOM_ONE_SAMPLE then
          ⟨p1, f.stats, f.anomaly⟩
        else
          let g := hitGuardRailLocked p1 eventKey
          if g.1 then ⟨g.2.1, f.stats ++ g.2.2, f.anomaly⟩
          else
            let p2 :=
              { g.2.1 with
                  mCurrentSlicedBucket := ensureKey g.2.1.mCurrentSlicedBucket eventKey }
            if (getAtKey p2.mCurrentSlicedBucket eventKey).length ≥
                p2.mGaugeAtomsPerDimensionLimit then
              ⟨p2, f.stats ++ g.2.2, f.anomaly⟩
            else
              let truncatedElapsedTimestampNs := env.truncateTimestamp event
              let gaugeAtom : GaugeAtom :=
                ⟨getGaugeFields p2 event, truncatedElapsedTimestampNs⟩
              let p3 :=
                { p2 with
                    mCurrentSlicedBucket :=
                      pushAt p2.mCurrentSlicedBucket eventKey gaugeAtom }
              let calls :=
                if p3.mAnomalyTrackerCount > 0 ∧ gaugeAtom.mFields.length = 1 then
                  List.replicate p3.mAnomalyTrackerCount
                    { eventTimeNs := eventTimeNs
                      bucketNum := p3.mCurrentBucketNum
                      metricId := p3.mMetricId
                      key := eventKey
                      value :=
                        match gaugeAtom.mFields with
                        | [] => 0
                        | fv :: _ => gaugeLongValue fv.mValue }
                else []
              ⟨p3, f.stats ++ g.2.2, f.anomaly ++ calls⟩

end

/-- `GaugeMetricProducer::onDataPulled`: discard the batch on
non-success or emptiness; otherwise record the pull delay against the
statistics sink, drop on exceeding the maximum delay, else match and
append each atom at its own timestamp. -/
def onDataPulled (fuel : Nat) (env : Env) (p : GaugeMetricProducer)
    (allData : List LogEvent) (pullResult : PullResult)
    (originalPullTimeNs : Int) : GaugeStepOut :=
  if pullResult ≠ PullResult.PULL_RESULT_SUCCESS ∨ allData.length = 0 then ⟨p, [], []⟩
  else
    let pullDelayNs := env.nowNs - originalPullTimeNs
    let stats0 := [StatsEvent.pullDelay p.mPullTagId pullDelayNs]
    if pullDelayNs > p.mMaxPullDelayNs then
      ⟨p, stats0 ++ [StatsEvent.pullExceedMaxDelay p.mPullTagId], []⟩
    else
      runPulled env (fun e => e)
        (fun q e => onMatchedLogEventLocked fuel env q e)
        ⟨p, stats0, []⟩ allData

/-- `GaugeMetricProducer::onConditionChangedLocked`. -/
def onConditionChangedLocked (fuel : Nat) (env : Env) (p : GaugeMetricProducer)
    (conditionMet : Bool) (eventTimeNs : Int) : GaugeStepOut :=
  let p0 :=
    { p with
        mCondition :=
          if conditionMet then ConditionState.kTrue else ConditionState.kFalse }
  if p0.mIsActive = false then ⟨p0, [], []⟩
  else
    let f := flushIfNeededLocked p0 eventTimeNs
    if conditionMet ∧ isPulled f.st ∧
        (isRandomNSamples f.st ∨
          f.st.mSamplingType = SamplingType.CONDITION_CHANGE_TO_TRUE) then
      let r := pullAndMatchEventsLocked fuel env f.st eventTimeNs
      ⟨r.st, f.stats ++ r.stats, f.anomaly ++ r.anomaly⟩
    else f

/-- `GaugeMetricProducer::onSlicedConditionMayChangeLocked`. -/
def onSlicedConditionMayChangeLocked (fuel : Nat) (env : Env)
    (p : GaugeMetricProducer) (overallCondition : Bool) (eventTimeNs : Int) :
    GaugeStepOut :=
  let p0 :=
    { p with
        mCondition :=
          if overallCondition then ConditionState.kTrue else ConditionState.kFalse }
  if p0.mIsActive = false then ⟨p0, [], []⟩
  else
    let f := flushIfNeededLocked p0 eventTimeNs
    if overallCondition ∧ isPulled f.st ∧ f.st.mTriggerAtomId = -1 then
      let r := pullAndMatchEventsLocked fuel env f.st eventTimeNs
      ⟨r.st, f.stats ++ r.stats, f.anomaly ++ r.anomaly⟩
    else f

/-- `GaugeMetricProducer::onActiveStateChangedLocked` composed with the
base-class behavior (`MetricProducer::onActiveStateChangedLocked`
flushes on deactivation); the caller's update of `mIsActive` is
modelled from the spec's activation state machine. -/
def onActiveStateChangedLocked (fuel : Nat) (env : Env) (p : GaugeMetricProducer)
    (eventTimeNs : Int) (isActive : Bool) : GaugeStepOut :=
  let p0 := { p with mIsActive := isActive }
  let f := if isActive = false then flushLocked p0 eventTimeNs else ⟨p0, [], []⟩
  if f.st.mCondition ≠ ConditionState.kTrue then f
  else if isActive ∧ isPulled f.st ∧ isRandomNSamples f.st then
    let r := pullAndMatchEventsLocked fuel env f.st eventTimeNs
    ⟨r.st, f.stats ++ r.stats, f.anomaly ++ r.anomaly⟩
  else f

/-- `GaugeMetricProducer::prepareFirstBucketLocked`. -/
def prepareFirstBucketLocked (fuel : Nat) (env : Env)
    (p : GaugeMetricProducer) : GaugeStepOut :=
  if p.mCondition = ConditionState.kTrue ∧ p.mIsActive ∧ isPulled p ∧
      isRandomNSamples p then
    pullAndMatchEventsLocked fuel env p p.mCurrentBucketStartTimeNs
  else ⟨p, [], []⟩

/-- `GaugeMetricProducer::dropDataLocked`: flush, note the drop against
the statistics sink, then clear the past buckets. -/
def dropDataLocked (p : GaugeMetricProducer) (dropTimeNs : Int) : GaugeStepOut :=
  let f := flushIfNeededLocked p dropTimeNs
  ⟨{ f.st with mPastBuckets := [] },
   f.stats ++ [StatsEvent.bucketDropped p.mMetricId], f.anomaly⟩

/-- `GaugeMetricProducer::clearPastBucketsLocked`: flush, then clear
the past buckets and the skipped buckets. -/
def clearPastBucketsLocked (p : GaugeMetricProducer) (dumpTimeNs : Int) : GaugeStepOut :=
  let f := flushIfNeededLocked p dumpTimeNs
  ⟨{ f.st with mPastBuckets := [], mSkippedBuckets := [] }, f.stats, f.anomaly⟩

end Statsd

namespace Statsd

/-- One write into the report's protobuf output stream
(`ProtoOutputStream`), abstracted to the field being written; message
nesting is flattened into per-section item runs. -/
inductive ProtoItem where
  | metricId (v : Int)
  | isActive (b : Bool)
  | dimensionGuardrailHit (b : Bool)
  | timeBase (v : Int)
  | bucketSize (v : Int)
  | dimensionPathInWhat (ms : List Matcher)
  | skippedStartMillis (v : Int)
  | skippedEndMillis (v : Int)
  | skippedDropEvent (reason : BucketDropReason) (dropTimeMillis : Int)
  | dimensionInWhat (k : HashableDimensionKey)
  | dimensionLeafInWhat (k : HashableDimensionKey)
  | bucketNum (v : Int)
  | startBucketElapsedMillis (v : Int)
  | endBucketElapsedMillis (v : Int)
  | aggregatedAtom (key : AtomDimensionKey) (timestampsNs : List Int)
deriving DecidableEq

/-- The per-bucket serialization step of `onDumpReportLocked`
(the `bucket_info` loop): a full-width bucket is written as its
absolute bucket number, any other bucket as explicit start and end
millisecond timestamps; then the aggregated atoms follow. -/
def writeBucketInfo (p : GaugeMetricProducer) (bucket : GaugeBucket) : List ProtoItem :=
  (if bucket.mBucketEndNs - bucket.mBucketStartNs ≠ p.mBucketSizeNs then
    [ProtoItem.startBucketElapsedMillis (nanoToMillis bucket.mBucketStartNs),
     ProtoItem.endBucketElapsedMillis (nanoToMillis bucket.mBucketEndNs)]
   else [ProtoItem.bucketNum (getBucketNumFromEndTimeNs p bucket.mBucketEndNs)])
  ++ bucket.mAggregatedAtoms.map (fun kv => ProtoItem.aggregatedAtom kv.1 kv.2)

/-- The skipped-bucket serialization loop of `onDumpReportLocked`. -/
def writeSkippedBucket (sb : SkippedBucket) : List ProtoItem :=
  [ProtoItem.skippedStartMillis (nanoToMillis sb.bucketStartTimeNs),
   ProtoItem.skippedEndMillis (nanoToMillis sb.bucketEndTimeNs)]
  ++ sb.dropEvents.map
      (fun d => ProtoItem.skippedDropEvent d.reason (nanoToMillis d.dropTimeNs))

/-- The per-dimension serialization loop of `onDumpReportLocked`:
the dimension (nested tree or leaf nodes) followed by its buckets. -/
def writePastBucketEntry (p : GaugeMetricProducer)
    (entry : MetricDimensionKey × List GaugeBucket) : List ProtoItem :=
  (if p.mShouldUseNestedDimensions then
    [ProtoItem.dimensionInWhat entry.1.dimensionKeyInWhat]
   else [ProtoItem.dimensionLeafInWhat entry.1.dimensionKeyInWhat])
  ++ entry.2.flatMap (fun bucket => writeBucketInfo p bucket)

/-- `GaugeMetricProducer::onDumpReportLocked`: flush (partially when
requested), write the id and active flag, return early when there is
nothing to report, otherwise serialize the guardrail flag, header
fields, skipped buckets and past buckets, and clear the report state
when `eraseData` is set. -/
def onDumpReportLocked (p : GaugeMetricProducer) (dumpTimeNs : Int)
    (includeCurrentPartialBucket : Bool) (eraseData : Bool) :
    GaugeStepOut × List ProtoItem :=
  let f :=
    if includeCurrentPartialBucket then flushLocked p dumpTimeNs
    else flushIfNeededLocked p dumpTimeNs
  let p1 := f.st
  let header := [ProtoItem.metricId p1.mMetricId, ProtoItem.isActive p1.mIsActive]
  if p1.mPastBuckets.isEmpty ∧ p1.mSkippedBuckets.isEmpty then
    (⟨p1, f.stats, f.anomaly⟩, header)
  else
    let items :=
      header
      ++ (if p1.mDimensionGuardrailHit then
            [ProtoItem.dimensionGuardrailHit p1.mDimensionGuardrailHit] else [])
      ++ [ProtoItem.timeBase p1.mTimeBaseNs, ProtoItem.bucketSize p1.mBucketSizeNs]
      ++ (if p1.mShouldUseNestedDimensions = false ∧ p1.mDimensionsInWhat ≠ [] then
            [ProtoItem.dimensionPathInWhat p1.mDimensionsInWhat] else [])
      ++ p1.mSkippedBuckets.flatMap writeSkippedBucket
      ++ p1.mPastBuckets.flatMap (fun e => writePastBucketEntry p1 e)
    let p2 :=
      if eraseData then
        { p1 with
            mPastBuckets := []
            mSkippedBuckets := []
            mDimensionGuardrailHit := false }
      else p1
    (⟨p2, f.stats, f.anomaly⟩, items)

/-- One externally triggered producer operation, covering the public
entry points implemented in the source. -/
inductive GaugeOp where
  | matchedLogEvent (event : LogEvent)
  | pullAndMatch (timestampNs : Int)
  | dataPulled (allData : List LogEvent) (result : PullResult) (originalPullTimeNs : Int)
  | conditionChanged (conditionMet : Bool) (eventTimeNs : Int)
  | slicedConditionMayChange (overallCondition : Bool) (eventTimeNs : Int)
  | activeStateChanged (eventTimeNs : Int) (isActive : Bool)
  | dumpReport (dumpTimeNs : Int) (includeCurrentPartialBucket : Bool) (eraseData : Bool)
  | clearPastBuckets (dumpTimeNs : Int)
  | dropAllData (dropTimeNs : Int)
  | prepareFirstBucket
deriving DecidableEq

/-- Dispatch one operation against the producer. -/
def applyOp (fuel : Nat) (env : Env) (p : GaugeMetricProducer) :
    GaugeOp → GaugeStepOut
  | GaugeOp.matchedLogEvent event => onMatchedLogEventLocked fuel env p event
  | GaugeOp.pullAndMatch t => pullAndMatchEventsLocked fuel env p t
  | GaugeOp.dataPulled allData result t => onDataPulled fuel env p allData result t
  | GaugeOp.conditionChanged met t => onConditionChangedLocked fuel env p met t
  | GaugeOp.slicedConditionMayChange overall t =>
      onSlicedConditionMayChangeLocked fuel env p overall t
  | GaugeOp.activeStateChanged t isActive =>
      onActiveStateChangedLocked fuel env p t isActive
  | GaugeOp.dumpReport t includeCurrent erase =>
      (onDumpReportLocked p t includeCurrent erase).1
  | GaugeOp.clearPastBuckets t => clearPastBucketsLocked p t
  | GaugeOp.dropAllData t => dropDataLocked p t
  | GaugeOp.prepareFirstBucket => prepareFirstBucketLocked fuel env p

/-- Run a sequence of operations, threading the producer state. -/
def applyOps (fuel : Nat) (env : Env) (p : GaugeMetricProducer)
    (ops : List GaugeOp) : GaugeMetricProducer :=
  ops.foldl (fun q op => (applyOp fuel env q op).st) p

end Statsd

namespace Statsd

section AListLemmas

variable {α β γ : Type} [DecidableEq α]

theorem lookup_eq_none_iff (m : List (α × β)) (k : α) :
    lookupList m k = none ↔ k ∉ m.map Prod.fst := by
  induction m with
  | nil => simp [lookupList]
  | cons kv rest ih =>
    obtain ⟨k', v⟩ := kv
    by_cases h : k' = k
    · subst h
      simp [lookupList]
    · simp [lookupList, h, ih, Ne.symm h]

theorem lookup_pushAt_self (m : List (α × List γ)) (k : α) (v : γ) :
    lookupList (pushAt m k v) k = some (getAtKey m k ++ [v]) := by
  induction m with
  | nil => simp [pushAt, lookupList, getAtKey]
  | cons kv rest ih =>
    obtain ⟨k', vs⟩ := kv
    by_cases h : k' = k
    · subst h
      simp [pushAt, lookupList, getAtKey]
    · simp [pushAt, lookupList, getAtKey, h, ih]

theorem lookup_pushAt_ne (m : List (α × List γ)) (k k' : α) (v : γ) (h : k' ≠ k) :
    lookupList (pushAt m k v) k' = lookupList m k' := by
  induction m with
  | nil => simp [pushAt, lookupList, Ne.symm h]
  | cons kv rest ih =>
    obtain ⟨k0, vs⟩ := kv
    by_cases h0 : k0 = k
    · subst h0
      simp [pushAt, lookupList, Ne.symm h]
    · simp [pushAt, lookupList, h0, ih]

theorem map_fst_pushAt_of_isSome (m : List (α × List γ)) (k : α) (v : γ)
    (h : (lookupList m k).isSome) : (pushAt m k v).map Prod.fst = m.map Prod.fst := by
  induction m with
  | nil => simp [lookupList] at h
  | cons kv rest ih =>
    obtain ⟨k', vs⟩ := kv
    by_cases h0 : k' = k
    · subst h0
      simp [pushAt]
    · simp only [lookupList, if_neg h0] at h
      simp [pushAt, h0, ih h]

theorem map_fst_pushAt_of_none (m : List (α × List γ)) (k : α) (v : γ)
    (h : lookupList m k = none) : (pushAt m k v).map Prod.fst = m.map Prod.fst ++ [k] := by
  induction m with
  | nil => simp [pushAt]
  | cons kv rest ih =>
    obtain ⟨k', vs⟩ := kv
    by_cases h0 : k' = k
    · subst h0
      simp [lookupList] at h
    · simp only [lookupList, if_neg h0] at h
      simp [pushAt, h0, ih h]

theorem mem_pushAt (m : List (α × List γ)) (k : α) (v : γ) (kv : α × List γ) :
    kv ∈ pushAt m k v → kv ∈ m ∨ kv = (k, getAtKey m k ++ [v]) := by
  induction m with
  | nil =>
    intro hmem
    simp only [pushAt, List.mem_singleton] at hmem
    right
    simp [hmem, getAtKey, lookupList]
  | cons kv0 rest ih =>
    obtain ⟨k', vs⟩ := kv0
    intro hmem
    by_cases h0 : k' = k
    · subst h0
      simp only [pushAt, if_true, eq_self_iff_true, List.mem_cons] at hmem
      rcases hmem with h1 | h1
      · right
        simp [h1, getAtKey, lookupList]
      · left
        exact List.mem_cons_of_mem _ h1
    · simp only [pushAt, if_neg h0, List.mem_cons] at hmem
      rcases hmem with h1 | h1
      · left
        simp [h1]
      · rcases ih h1 with h2 | h2
        · left
          exact List.mem_cons_of_mem _ h2
        · right
          simpa [getAtKey, lookupList, h0] using h2

theorem ensureKey_of_isSome (m : List (α × List γ)) (k : α)
    (h : (lookupList m k).isSome) : ensureKey m k = m := by
  induction m with
  | nil => simp [lookupList] at h
  | cons kv rest ih =>
    obtain ⟨k', vs⟩ := kv
    by_cases h0 : k' = k
    · subst h0
      simp [ensureKey]
    · simp only [lookupList, if_neg h0] at h
      simp [ensureKey, h0, ih h]

theorem ensureKey_of_none (m : List (α × List γ)) (k : α)
    (h : lookupList m k = none) : ensureKey m k = m ++ [(k, [])] := by
  induction m with
  | nil => simp [ensureKey]
  | cons kv rest ih =>
    obtain ⟨k', vs⟩ := kv
    by_cases h0 : k' = k
    · subst h0
      simp [lookupList] at h
    · simp only [lookupList, if_neg h0] at h
      simp [ensureKey, h0, ih h]

theorem getAtKey_ensureKey_self (m : List (α × List γ)) (k : α) :
    getAtKey (ensureKey m k) k = getAtKey m k := by
  induction m with
  | nil => simp [ensureKey, getAtKey, lookupList]
  | cons kv rest ih =>
    obtain ⟨k', vs⟩ := kv
    by_cases h0 : k' = k
    · subst h0
      simp [ensureKey, getAtKey, lookupList]
    · simpa [ensureKey, getAtKey, lookupList, h0] using ih

end AListLemmas

end Statsd

namespace Statsd

section MoreAListLemmas

variable {α β γ : Type} [DecidableEq α]

theorem lookup_ensureKey_self (m : List (α × List γ)) (k : α) :
    lookupList (ensureKey m k) k = some (getAtKey m k) := by
  induction m with
  | nil => simp [ensureKey, lookupList, getAtKey]
  | cons kv rest ih =>
    obtain ⟨k', vs⟩ := kv
    by_cases h0 : k' = k
    · subst h0
      simp [ensureKey, lookupList, getAtKey]
    · simp [ensureKey, lookupList, getAtKey, h0, ih]

theorem mem_ensureKey (m : List (α × List γ)) (k : α) (kv : α × List γ) :
    kv ∈ ensureKey m k → kv ∈ m ∨ kv = (k, []) := by
  rcases h : lookupList m k with _ | vs
  · rw [ensureKey_of_none m k h]
    intro hmem
    rcases List.mem_append.mp hmem with h1 | h1
    · exact Or.inl h1
    · exact Or.inr (List.mem_singleton.mp h1)
  · rw [ensureKey_of_isSome m k (by simp [h])]
    exact Or.inl

theorem lookup_foldl_pushAt_not_mem (f : α × β → γ) (slices : List (α × β)) :
    ∀ (m : List (α × List γ)) (k : α), k ∉ slices.map Prod.fst →
      lookupList (slices.foldl (fun pb s => pushAt pb s.1 (f s)) m) k =
        lookupList m k := by
  induction slices with
  | nil => intro m k _; rfl
  | cons s rest ih =>
    intro m k hk
    simp only [List.map_cons, List.mem_cons] at hk
    push_neg at hk
    simp only [List.foldl_cons]
    rw [ih (pushAt m s.1 (f s)) k hk.2, lookup_pushAt_ne m s.1 k (f s) hk.1]

theorem lookup_foldl_pushAt_mem (f : α × β → γ) (slices : List (α × β)) :
    (slices.map Prod.fst).Nodup →
    ∀ (m : List (α × List γ)) (kv : α × β), kv ∈ slices →
      lookupList (slices.foldl (fun pb s => pushAt pb s.1 (f s)) m) kv.1 =
        some (getAtKey m kv.1 ++ [f kv]) := by
  induction slices with
  | nil => intro _ m kv hkv; cases hkv
  | cons s rest ih =>
    intro hnod m kv hkv
    simp only [List.map_cons, List.nodup_cons] at hnod
    simp only [List.foldl_cons]
    rcases List.mem_cons.mp hkv with h1 | h1
    · subst h1
      rw [lookup_foldl_pushAt_not_mem f rest (pushAt m kv.1 (f kv)) kv.1 hnod.1]
      exact lookup_pushAt_self m kv.1 (f kv)
    · have hne : kv.1 ≠ s.1 := by
        intro he
        exact hnod.1 (he ▸ List.mem_map_of_mem Prod.fst h1)
      rw [ih hnod.2 (pushAt m s.1 (f s)) kv h1]
      unfold getAtKey
      rw [lookup_pushAt_ne m s.1 kv.1 (f s) hne]

end MoreAListLemmas

section FlushLemmas

theorem flushCurrentBucket_bucket (p : GaugeMetricProducer) (e n : Int) :
    (flushCurrentBucketLocked p e n).st.mCurrentSlicedBucket = [] := rfl

theorem flushCurrentBucket_samplingType (p : GaugeMetricProducer) (e n : Int) :
    (flushCurrentBucketLocked p e n).st.mSamplingType = p.mSamplingType := rfl

theorem flushCurrentBucket_softLimit (p : GaugeMetricProducer) (e n : Int) :
    (flushCurrentBucketLocked p e n).st.mDimensionSoftLimit = p.mDimensionSoftLimit := rfl

theorem flushCurrentBucket_hardLimit (p : GaugeMetricProducer) (e n : Int) :
    (flushCurrentBucketLocked p e n).st.mDimensionHardLimit = p.mDimensionHardLimit := rfl

theorem flushCurrentBucket_bucketNum (p : GaugeMetricProducer) (e n : Int) :
    (flushCurrentBucketLocked p e n).st.mCurrentBucketNum = p.mCurrentBucketNum := rfl

theorem flushCurrentBucket_guardrailHit (p : GaugeMetricProducer) (e n : Int) :
    (flushCurrentBucketLocked p e n).st.mDimensionGuardrailHit =
      p.mDimensionGuardrailHit := rfl

theorem flushCurrentBucket_anomaly (p : GaugeMetricProducer) (e n : Int) :
    (flushCurrentBucketLocked p e n).anomaly = [] := rfl

theorem flushIfNeeded_samplingType (p : GaugeMetricProducer) (t : Int) :
    (flushIfNeededLocked p t).st.mSamplingType = p.mSamplingType := by
  simp only [flushIfNeededLocked]
  split <;> rfl

theorem flushIfNeeded_softLimit (p : GaugeMetricProducer) (t : Int) :
    (flushIfNeededLocked p t).st.mDimensionSoftLimit = p.mDimensionSoftLimit := by
  simp only [flushIfNeededLocked]
  split <;> rfl

theorem flushIfNeeded_hardLimit (p : GaugeMetricProducer) (t : Int) :
    (flushIfNeededLocked p t).st.mDimensionHardLimit = p.mDimensionHardLimit := by
  simp only [flushIfNeededLocked]
  split <;> rfl

theorem flushIfNeeded_guardrailHit (p : GaugeMetricProducer) (t : Int) :
    (flushIfNeededLocked p t).st.mDimensionGuardrailHit = p.mDimensionGuardrailHit := by
  simp only [flushIfNeededLocked]
  split <;> rfl

theorem flushIfNeeded_anomaly (p : GaugeMetricProducer) (t : Int) :
    (flushIfNeededLocked p t).anomaly = [] := by
  simp only [flushIfNeededLocked]
  split <;> rfl

theorem flushIfNeeded_bucket_cases (p : GaugeMetricProducer) (t : Int) :
    (flushIfNeededLocked p t).st.mCurrentSlicedBucket = p.mCurrentSlicedBucket ∨
      (flushIfNeededLocked p t).st.mCurrentSlicedBucket = [] := by
  simp only [flushIfNeededLocked]
  split
  · exact Or.inl rfl
  · exact Or.inr rfl

theorem flushLocked_bucket (p : GaugeMetricProducer) (t : Int) :
    (flushLocked p t).st.mCurrentSlicedBucket = [] := rfl

end FlushLemmas

section GuardrailLemmas

theorem hitGuardRail_false_state (p : GaugeMetricProducer) (k : MetricDimensionKey)
    (h : (hitGuardRailLocked p k).1 = false) : (hitGuardRailLocked p k).2.1 = p := by
  simp only [hitGuardRailLocked] at h ⊢
  split_ifs at h ⊢ <;> simp_all

theorem hitGuardRail_bucket (p : GaugeMetricProducer) (k : MetricDimensionKey) :
    (hitGuardRailLocked p k).2.1.mCurrentSlicedBucket = p.mCurrentSlicedBucket := by
  simp only [hitGuardRailLocked]
  split_ifs <;> rfl

theorem hitGuardRail_samplingType (p : GaugeMetricProducer) (k : MetricDimensionKey) :
    (hitGuardRailLocked p k).2.1.mSamplingType = p.mSamplingType := by
  simp only [hitGuardRailLocked]
  split_ifs <;> rfl

theorem hitGuardRail_softLimit (p : GaugeMetricProducer) (k : MetricDimensionKey) :
    (hitGuardRailLocked p k).2.1.mDimensionSoftLimit = p.mDimensionSoftLimit := by
  simp only [hitGuardRailLocked]
  split_ifs <;> rfl

theorem hitGuardRail_hardLimit (p : GaugeMetricProducer) (k : MetricDimensionKey) :
    (hitGuardRailLocked p k).2.1.mDimensionHardLimit = p.mDimensionHardLimit := by
  simp only [hitGuardRailLocked]
  split_ifs <;> rfl

theorem hitGuardRail_true_latches (p : GaugeMetricProducer) (k : MetricDimensionKey)
    (h : (hitGuardRailLocked p k).1 = true) :
    (hitGuardRailLocked p k).2.1.mDimensionGuardrailHit = true := by
  simp only [hitGuardRailLocked] at h ⊢
  split_ifs at h ⊢ <;> simp_all

theorem hitGuardRail_true_iff (p : GaugeMetricProducer) (k : MetricDimensionKey)
    (hconf : p.mDimensionSoftLimit ≤ p.mDimensionHardLimit) :
    (hitGuardRailLocked p k).1 = true ↔
      (lookupList p.mCurrentSlicedBucket k = none ∧
        p.mCurrentSlicedBucket.length + 1 > p.mDimensionHardLimit) := by
  simp only [hitGuardRailLocked]
  split_ifs with h1 h2 h3
  · rw [Option.isSome_iff_ne_none] at h1
    simp [h1]
  · have hnone := Option.not_isSome_iff_eq_none.mp h1
    simp [hnone, h3]
  · simp [h3]
  · constructor
    · intro hfalse
      cases hfalse
    · rintro ⟨-, hgt⟩
      exact absurd (by omega : p.mCurrentSlicedBucket.length ≥ p.mDimensionSoftLimit) h2

theorem hitGuardRail_false_length_bound (p : GaugeMetricProducer)
    (k : MetricDimensionKey)
    (hconf : p.mDimensionSoftLimit ≤ p.mDimensionHardLimit)
    (h : (hitGuardRailLocked p k).1 = false)
    (hnone : lookupList p.mCurrentSlicedBucket k = none) :
    p.mCurrentSlicedBucket.length + 1 ≤ p.mDimensionHardLimit := by
  by_contra hlt
  have := (hitGuardRail_true_iff p k hconf).mpr ⟨hnone, by omega⟩
  rw [h] at this
  cases this

end GuardrailLemmas

end Statsd

namespace Statsd

section Preservation

theorem foldl_preserves {σ τ : Type} (Q : σ → Prop) (f : σ → τ → σ)
    (hf : ∀ s t, Q s → Q (f s t)) :
    ∀ (l : List τ) (s : σ), Q s → Q (List.foldl f s l) := by
  intro l
  induction l with
  | nil => intro s hs; exact hs
  | cons x xs ih =>
    intro s hs
    simp only [List.foldl_cons]
    exact ih (f s x) (hf s x hs)

theorem runPulled_preserves (P : GaugeMetricProducer → Prop) (env : Env)
    (tf : LogEvent → LogEvent) (step : GaugeMetricProducer → LogEvent → GaugeStepOut)
    (hstep : ∀ q e, P q → P (step q e).st) (allData : List LogEvent)
    (out : GaugeStepOut) (hout : P out.st) :
    P (runPulled env tf step out allData).st := by
  simp only [runPulled]
  refine foldl_preserves (fun o => P o.st) _ ?_ allData out hout
  intro o d ho
  dsimp only
  split
  · exact hstep _ _ ho
  · exact ho

theorem gaugeStep_preserves (P : GaugeMetricProducer → Prop)
    (hflush : ∀ p t, P p → P (flushIfNeededLocked p t).st)
    (hguard : ∀ p k, P p → P (hitGuardRailLocked p k).2.1)
    (hensure : ∀ (p : GaugeMetricProducer) (k : MetricDimensionKey), P p →
      (hitGuardRailLocked p k).1 = false →
      P { p with mCurrentSlicedBucket := ensureKey p.mCurrentSlicedBucket k })
    (happend : ∀ (p : GaugeMetricProducer) (k : MetricDimensionKey) (atom : GaugeAtom),
      P p → (hitGuardRailLocked p k).1 = false →
      ((lookupList p.mCurrentSlicedBucket k).isSome →
        p.mSamplingType ≠ SamplingType.RANDOM_ONE_SAMPLE) →
      P { p with mCurrentSlicedBucket :=
            pushAt (ensureKey p.mCurrentSlicedBucket k) k atom }) :
    ∀ fuel : Nat,
      (∀ env p t, P p → P (pullAndMatchEventsLocked fuel env p t).st) ∧
      (∀ env p ev, P p → P (onMatchedLogEventLocked fuel env p ev).st) ∧
      (∀ env p k c ev, P p → P (onMatchedLogEventInternalLocked fuel env p k c ev).st) := by
  intro fuel
  induction fuel with
  | zero =>
    refine ⟨?_, ?_, ?_⟩
    · intro env p t hp
      simpa [pullAndMatchEventsLocked] using hp
    · intro env p ev hp
      simpa [onMatchedLogEventLocked] using hp
    · intro env p k c ev hp
      simpa [onMatchedLogEventInternalLocked] using hp
  | succ n ih =>
    obtain ⟨ihPull, ihMatched, ihInternal⟩ := ih
    have hPull : ∀ env p t, P p →
        P (pullAndMatchEventsLocked (Nat.succ n) env p t).st := by
      intro env p t hp
      simp only [pullAndMatchEventsLocked]
      split
      · exact hp
      · split
        · exact hp
        · split
          · exact hp
          · exact runPulled_preserves P env _ _
              (fun q e hq => ihMatched env q e hq) _ _ hp
    have hInternal : ∀ env p k c ev, P p →
        P (onMatchedLogEventInternalLocked (Nat.succ n) env p k c ev).st := by
      intro env p k c ev hp
      simp only [onMatchedLogEventInternalLocked]
      split
      · exact hp
      · split
        · exact hp
        · split
          · exact hp
          · have hp1 : P (flushIfNeededLocked p ev.elapsedTimestampNs).st :=
              hflush p _ hp
            split
            · exact ihPull env _ _ hp1
            · split
              · exact hp1
              · rename_i hhit0
                split
                · rename_i hhit
                  exact hguard _ k hp1
                · rename_i hhit
                  have hfalse : (hitGuardRailLocked
                      (flushIfNeededLocked p ev.elapsedTimestampNs).st k).1 = false := by
                    simpa using hhit
                  rw [hitGuardRail_false_state _ _ hfalse]
                  split
                  · exact hensure _ k hp1 hfalse
                  · refine happend _ k _ hp1 hfalse ?_
                    intro hsome hR1S
                    exact hhit0 ⟨hsome, hR1S⟩
    refine ⟨hPull, ?_, hInternal⟩
    intro env p ev hp
    simp only [onMatchedLogEventLocked]
    split
    · exact hp
    · exact ihInternal env p _ _ ev hp

end Preservation

end Statsd

namespace Statsd

section OpPreservation

theorem gaugeOp_preserves (P : GaugeMetricProducer → Prop)
    (hdep : ∀ p q : GaugeMetricProducer, P p →
      q.mCurrentSlicedBucket = p.mCurrentSlicedBucket →
      q.mSamplingType = p.mSamplingType →
      q.mDimensionSoftLimit = p.mDimensionSoftLimit →
      q.mDimensionHardLimit = p.mDimensionHardLimit → P q)
    (hfcb : ∀ (p : GaugeMetricProducer) (e n : Int),
      P p → P (flushCurrentBucketLocked p e n).st)
    (hguard : ∀ p k, P p → P (hitGuardRailLocked p k).2.1)
    (hensure : ∀ (p : GaugeMetricProducer) (k : MetricDimensionKey), P p →
      (hitGuardRailLocked p k).1 = false →
      P { p with mCurrentSlicedBucket := ensureKey p.mCurrentSlicedBucket k })
    (happend : ∀ (p : GaugeMetricProducer) (k : MetricDimensionKey) (atom : GaugeAtom),
      P p → (hitGuardRailLocked p k).1 = false →
      ((lookupList p.mCurrentSlicedBucket k).isSome →
        p.mSamplingType ≠ SamplingType.RANDOM_ONE_SAMPLE) →
      P { p with mCurrentSlicedBucket :=
            pushAt (ensureKey p.mCurrentSlicedBucket k) k atom }) :
    ∀ (fuel : Nat) (env : Env) (p : GaugeMetricProducer) (op : GaugeOp),
      P p → P (applyOp fuel env p op).st := by
  have hflush : ∀ (q : GaugeMetricProducer) (t : Int), P q →
      P (flushIfNeededLocked q t).st := by
    intro q t hq
    simp only [flushIfNeededLocked]
    split
    · exact hq
    · exact hdep _ _
        (hfcb q t (getCurrentBucketEndTimeNs q +
          (1 + (t - getCurrentBucketEndTimeNs q).tdiv q.mBucketSizeNs - 1) *
            q.mBucketSizeNs) hq)
        rfl rfl rfl rfl
  have hflushL : ∀ (q : GaugeMetricProducer) (t : Int), P q →
      P (flushLocked q t).st := by
    intro q t hq
    simp only [flushLocked]
    exact hfcb _ _ _ (hflush q t hq)
  intro fuel env p op hp
  have trio := gaugeStep_preserves P hflush hguard hensure happend fuel
  cases op with
  | matchedLogEvent ev => exact trio.2.1 env p ev hp
  | pullAndMatch t => exact trio.1 env p t hp
  | dataPulled allData result t =>
    simp only [applyOp, onDataPulled]
    split
    · exact hp
    · split
      · exact hp
      · exact runPulled_preserves P env _ _ (fun q e hq => trio.2.1 env q e hq) _ _ hp
  | conditionChanged met t =>
    simp only [applyOp, onConditionChangedLocked]
    split_ifs <;>
      first
      | exact hdep _ _ hp rfl rfl rfl rfl
      | exact trio.1 env _ t (hflush _ t (hdep _ _ hp rfl rfl rfl rfl))
      | exact hflush _ t (hdep _ _ hp rfl rfl rfl rfl)
  | slicedConditionMayChange overall t =>
    simp only [applyOp, onSlicedConditionMayChangeLocked]
    split_ifs <;>
      first
      | exact hdep _ _ hp rfl rfl rfl rfl
      | exact trio.1 env _ t (hflush _ t (hdep _ _ hp rfl rfl rfl rfl))
      | exact hflush _ t (hdep _ _ hp rfl rfl rfl rfl)
  | activeStateChanged t isActive =>
    simp only [applyOp, onActiveStateChangedLocked]
    split_ifs <;>
      first
      | exact hdep _ _ hp rfl rfl rfl rfl
      | exact hflushL _ t (hdep _ _ hp rfl rfl rfl rfl)
      | exact trio.1 env _ t (hflushL _ t (hdep _ _ hp rfl rfl rfl rfl))
      | exact trio.1 env _ t (hdep _ _ hp rfl rfl rfl rfl)
  | dumpReport t includeCurrent erase =>
    simp only [applyOp, onDumpReportLocked]
    split_ifs <;>
      first
      | exact hflushL p t hp
      | exact hflush p t hp
      | exact hdep _ _ (hflushL p t hp) rfl rfl rfl rfl
      | exact hdep _ _ (hflush p t hp) rfl rfl rfl rfl
  | clearPastBuckets t =>
    simp only [applyOp, clearPastBucketsLocked]
    exact hdep _ _ (hflush p t hp) rfl rfl rfl rfl
  | dropAllData t =>
    simp only [applyOp, dropDataLocked]
    exact hdep _ _ (hflush p t hp) rfl rfl rfl rfl
  | prepareFirstBucket =>
    simp only [applyOp, prepareFirstBucketLocked]
    split
    · exact trio.1 env p _ hp
    · exact hp

theorem applyOps_preserves (P : GaugeMetricProducer → Prop)
    (hop : ∀ (fuel : Nat) (env : Env) (p : GaugeMetricProducer) (op : GaugeOp),
      P p → P (applyOp fuel env p op).st)
    (fuel : Nat) (env : Env) (p : GaugeMetricProducer) (ops : List GaugeOp)
    (hp : P p) : P (applyOps fuel env p ops) := by
  simp only [applyOps]
  exact foldl_preserves P _ (fun q op hq => hop fuel env q op hq) ops p hp

end OpPreservation

end Statsd

namespace Statsd

/-- The random-one-sample per-dimension bound: every dimension of the
current sliced bucket holds at most one gauge atom. -/
def atMostOneAtomPerDimension (p : GaugeMetricProducer) : Prop :=
  ∀ kv ∈ p.mCurrentSlicedBucket, kv.2.length ≤ 1

/-- The dimension-guardrail invariant: the current sliced bucket has
duplicate-free dimension keys, and at most `mDimensionHardLimit` of
them. -/
def dimensionGuardrailInv (p : GaugeMetricProducer) : Prop :=
  (p.mCurrentSlicedBucket.map Prod.fst).Nodup ∧
    p.mCurrentSlicedBucket.length ≤ p.mDimensionHardLimit

section InvariantInstantiation

theorem r1sPred_op_preserved :
    ∀ (fuel : Nat) (env : Env) (p : GaugeMetricProducer) (op : GaugeOp),
      (p.mSamplingType = SamplingType.RANDOM_ONE_SAMPLE ∧ atMostOneAtomPerDimension p) →
      ((applyOp fuel env p op).st.mSamplingType = SamplingType.RANDOM_ONE_SAMPLE ∧
        atMostOneAtomPerDimension (applyOp fuel env p op).st) := by
  refine gaugeOp_preserves _ ?_ ?_ ?_ ?_ ?_
  · intro p q hp hbucket hsamp _ _
    refine ⟨by rw [hsamp]; exact hp.1, ?_⟩
    intro kv hkv
    rw [hbucket] at hkv
    exact hp.2 kv hkv
  · intro p e n hp
    refine ⟨by rw [flushCurrentBucket_samplingType]; exact hp.1, ?_⟩
    intro kv hkv
    rw [flushCurrentBucket_bucket] at hkv
    cases hkv
  · intro p k hp
    refine ⟨by rw [hitGuardRail_samplingType]; exact hp.1, ?_⟩
    intro kv hkv
    rw [hitGuardRail_bucket] at hkv
    exact hp.2 kv hkv
  · intro p k hp _
    refine ⟨hp.1, ?_⟩
    intro kv hkv
    rcases mem_ensureKey _ _ _ hkv with h1 | h1
    · exact hp.2 kv h1
    · simp [h1]
  · intro p k atom hp _ hnoR1S
    refine ⟨hp.1, ?_⟩
    have hnone : lookupList p.mCurrentSlicedBucket k = none := by
      cases hlk : lookupList p.mCurrentSlicedBucket k with
      | none => rfl
      | some vs => exact absurd hp.1 (hnoR1S (by simp [hlk]))
    intro kv hkv
    rcases mem_pushAt _ _ _ _ hkv with h1 | h1
    · rcases mem_ensureKey _ _ _ h1 with h2 | h2
      · exact hp.2 kv h2
      · simp [h2]
    · rw [getAtKey_ensureKey_self] at h1
      simp [h1, getAtKey, hnone]

theorem guardrailPred_op_preserved :
    ∀ (fuel : Nat) (env : Env) (p : GaugeMetricProducer) (op : GaugeOp),
      (p.mDimensionSoftLimit ≤ p.mDimensionHardLimit ∧ dimensionGuardrailInv p) →
      ((applyOp fuel env p op).st.mDimensionSoftLimit ≤
          (applyOp fuel env p op).st.mDimensionHardLimit ∧
        dimensionGuardrailInv (applyOp fuel env p op).st) := by
  refine gaugeOp_preserves _ ?_ ?_ ?_ ?_ ?_
  · intro p q hp hbucket _ hsoft hhard
    refine ⟨by rw [hsoft, hhard]; exact hp.1, ?_, ?_⟩
    · rw [hbucket]
      exact hp.2.1
    · rw [hbucket, hhard]
      exact hp.2.2
  · intro p e n hp
    refine ⟨?_, ?_, ?_⟩
    · rw [flushCurrentBucket_softLimit, flushCurrentBucket_hardLimit]
      exact hp.1
    · rw [flushCurrentBucket_bucket]
      exact List.nodup_nil
    · rw [flushCurrentBucket_bucket, flushCurrentBucket_hardLimit]
      exact Nat.zero_le _
  · intro p k hp
    refine ⟨?_, ?_, ?_⟩
    · rw [hitGuardRail_softLimit, hitGuardRail_hardLimit]
      exact hp.1
    · rw [hitGuardRail_bucket]
      exact hp.2.1
    · rw [hitGuardRail_bucket, hitGuardRail_hardLimit]
      exact hp.2.2
  · intro p k hp hfalse
    refine ⟨hp.1, ?_, ?_⟩
    · cases hlk : lookupList p.mCurrentSlicedBucket k with
      | none =>
        rw [ensureKey_of_none _ _ hlk]
        simp only [List.map_append, List.map_cons, List.map_nil]
        rw [List.nodup_append]
        refine ⟨hp.2.1, List.nodup_singleton k, ?_⟩
        intro a ha hb
        rw [List.mem_singleton] at hb
        subst hb
        exact (lookup_eq_none_iff _ _).mp hlk ha
      | some vs =>
        rw [ensureKey_of_isSome _ _ (by simp [hlk])]
        exact hp.2.1
    · cases hlk : lookupList p.mCurrentSlicedBucket k with
      | none =>
        rw [ensureKey_of_none _ _ hlk]
        simp only [List.length_append, List.length_cons, List.length_nil]
        have := hitGuardRail_false_length_bound p k hp.1 hfalse hlk
        omega
      | some vs =>
        rw [ensureKey_of_isSome _ _ (by simp [hlk])]
        exact hp.2.2
  · intro p k atom hp hfalse _
    have hkeys : (pushAt (ensureKey p.mCurrentSlicedBucket k) k atom).map Prod.fst =
        (ensureKey p.mCurrentSlicedBucket k).map Prod.fst :=
      map_fst_pushAt_of_isSome _ _ _ (by rw [lookup_ensureKey_self]; rfl)
    have hlen : (pushAt (ensureKey p.mCurrentSlicedBucket k) k atom).length =
        (ensureKey p.mCurrentSlicedBucket k).length := by
      have h1 := congrArg List.length hkeys
      simpa [List.length_map] using h1
    have hens : ((ensureKey p.mCurrentSlicedBucket k).map Prod.fst).Nodup ∧
        (ensureKey p.mCurrentSlicedBucket k).length ≤ p.mDimensionHardLimit := by
      cases hlk : lookupList p.mCurrentSlicedBucket k with
      | none =>
        rw [ensureKey_of_none _ _ hlk]
        constructor
        · simp only [List.map_append, List.map_cons, List.map_nil]
          rw [List.nodup_append]
          refine ⟨hp.2.1, List.nodup_singleton k, ?_⟩
          intro a ha hb
          rw [List.mem_singleton] at hb
          subst hb
          exact (lookup_eq_none_iff _ _).mp hlk ha
        · simp only [List.length_append, List.length_cons, List.length_nil]
          have := hitGuardRail_false_length_bound p k hp.1 hfalse hlk
          omega
      | some vs =>
        rw [ensureKey_of_isSome _ _ (by simp [hlk])]
        exact hp.2
    refine ⟨hp.1, ?_, ?_⟩
    · rw [hkeys]
      exact hens.1
    · rw [hlen]
      exact hens.2

end InvariantInstantiation

end Statsd

namespace Statsd

/-- C1: flushIfNeeded is a no-op when the event time is before the
current bucket's end `timeBaseNs + (currentBucketNum + 1) * bucketSizeNs`;
otherwise it computes `numForward = 1 + (eventTimeNs - endNs) / bucketSizeNs`
(truncating integer division) and
`nextStartNs = endNs + (numForward - 1) * bucketSizeNs`, invokes
flushCurrentBucket at `(eventTimeNs, nextStartNs)`, and then increments
`currentBucketNum` by `numForward`. -/
theorem claim_C1 (p : GaugeMetricProducer) (eventTimeNs : Int) :
    (eventTimeNs < p.mTimeBaseNs + (p.mCurrentBucketNum + 1) * p.mBucketSizeNs →
      flushIfNeededLocked p eventTimeNs = ⟨p, [], []⟩) ∧
    (p.mTimeBaseNs + (p.mCurrentBucketNum + 1) * p.mBucketSizeNs ≤ eventTimeNs →
      flushIfNeededLocked p eventTimeNs =
        ⟨{ (flushCurrentBucketLocked p eventTimeNs
              ((p.mTimeBaseNs + (p.mCurrentBucketNum + 1) * p.mBucketSizeNs) +
                ((1 + (eventTimeNs -
                    (p.mTimeBaseNs + (p.mCurrentBucketNum + 1) * p.mBucketSizeNs)).tdiv
                      p.mBucketSizeNs) - 1) * p.mBucketSizeNs)).st with
            mCurrentBucketNum := p.mCurrentBucketNum +
              (1 + (eventTimeNs -
                (p.mTimeBaseNs + (p.mCurrentBucketNum + 1) * p.mBucketSizeNs)).tdiv
                  p.mBucketSizeNs) },
         (flushCurrentBucketLocked p eventTimeNs
            ((p.mTimeBaseNs + (p.mCurrentBucketNum + 1) * p.mBucketSizeNs) +
              ((1 + (eventTimeNs -
                  (p.mTimeBaseNs + (p.mCurrentBucketNum + 1) * p.mBucketSizeNs)).tdiv
                    p.mBucketSizeNs) - 1) * p.mBucketSizeNs)).stats,
         (flushCurrentBucketLocked p eventTimeNs
            ((p.mTimeBaseNs + (p.mCurrentBucketNum + 1) * p.mBucketSizeNs) +
              ((1 + (eventTimeNs -
                  (p.mTimeBaseNs + (p.mCurrentBucketNum + 1) * p.mBucketSizeNs)).tdiv
                    p.mBucketSizeNs) - 1) * p.mBucketSizeNs)).anomaly⟩) := by
  constructor
  · intro h
    simp only [flushIfNeededLocked, getCurrentBucketEndTimeNs]
    rw [if_pos h]
  · intro h
    simp only [flushIfNeededLocked, getCurrentBucketEndTimeNs]
    rw [if_neg (not_lt.mpr h)]
    rfl

/-- C6: for every event whose elapsed timestamp is strictly before
`currentBucketStartNs`, the append path returns early and leaves all
producer state unchanged, emitting no statistics or anomaly calls. -/
theorem claim_C6 (fuel : Nat) (env : Env) (p : GaugeMetricProducer)
    (eventKey : MetricDimensionKey) (condition : Bool) (event : LogEvent)
    (hlate : event.elapsedTimestampNs < p.mCurrentBucketStartTimeNs) :
    onMatchedLogEventInternalLocked fuel env p eventKey condition event =
      ⟨p, [], []⟩ := by
  cases fuel with
  | zero => rfl
  | succ n =>
    simp only [onMatchedLogEventInternalLocked]
    split
    · rfl
    · split
      · rfl
      · rfl

/-- C10: dropData flushes at dropTimeNs, notes the drop, and then
clears only the past-bucket map: the skipped-bucket list (including
any skipped bucket the flush just added) and the
dimension-guardrail-hit flag are left as the flush produced them (the
flush itself never touches the flag), whereas clearPastBuckets clears
both the past-bucket map and the skipped-bucket list. -/
theorem claim_C10 (p : GaugeMetricProducer) (dropTimeNs dumpTimeNs : Int) :
    (dropDataLocked p dropTimeNs =
      ⟨{ (flushIfNeededLocked p dropTimeNs).st with mPastBuckets := [] },
       (flushIfNeededLocked p dropTimeNs).stats ++
         [StatsEvent.bucketDropped p.mMetricId],
       (flushIfNeededLocked p dropTimeNs).anomaly⟩) ∧
    (dropDataLocked p dropTimeNs).st.mSkippedBuckets =
      (flushIfNeededLocked p dropTimeNs).st.mSkippedBuckets ∧
    (dropDataLocked p dropTimeNs).st.mDimensionGuardrailHit =
      p.mDimensionGuardrailHit ∧
    (clearPastBucketsLocked p dumpTimeNs).st.mPastBuckets = [] ∧
    (clearPastBucketsLocked p dumpTimeNs).st.mSkippedBuckets = [] := by
  refine ⟨rfl, rfl, ?_, rfl, rfl⟩
  show (flushIfNeededLocked p dropTimeNs).st.mDimensionGuardrailHit =
    p.mDimensionGuardrailHit
  exact flushIfNeeded_guardrailHit p dropTimeNs

end Statsd

namespace Statsd

/-- C5: when a pull's observed latency exceeds maxPullDelayNs, all
returned atoms are discarded (the producer state is unchanged) and
the delay and exceed events are recorded against the statistics sink,
in both the synchronous pullAndMatch path and the asynchronous
onDataPulled path; onDataPulled additionally discards the batch
without any effect when the pull result is not success or the batch
is empty. -/
theorem claim_C5 (n fuel : Nat) (env : Env) (p : GaugeMetricProducer)
    (timestampNs originalPullTimeNs : Int) (allData : List LogEvent)
    (result : PullResult) :
    ((match p.mSamplingType with
        | SamplingType.RANDOM_ONE_SAMPLE => p.mCurrentSlicedBucket.isEmpty
        | SamplingType.CONDITION_CHANGE_TO_TRUE => true
        | SamplingType.FIRST_N_SAMPLES => true
        | _ => false) = true →
      (env.pullResult timestampNs).isSome →
      env.nowNs - timestampNs > p.mMaxPullDelayNs →
      pullAndMatchEventsLocked (n + 1) env p timestampNs =
        ⟨p, [StatsEvent.pullDelay p.mPullTagId (env.nowNs - timestampNs),
             StatsEvent.pullExceedMaxDelay p.mPullTagId], []⟩) ∧
    (result ≠ PullResult.PULL_RESULT_SUCCESS ∨ allData = [] →
      onDataPulled fuel env p allData result originalPullTimeNs = ⟨p, [], []⟩) ∧
    (result = PullResult.PULL_RESULT_SUCCESS → allData ≠ [] →
      env.nowNs - originalPullTimeNs > p.mMaxPullDelayNs →
      onDataPulled fuel env p allData result originalPullTimeNs =
        ⟨p, [StatsEvent.pullDelay p.mPullTagId (env.nowNs - originalPullTimeNs),
             StatsEvent.pullExceedMaxDelay p.mPullTagId], []⟩) := by
  refine ⟨?_, ?_, ?_⟩
  · intro htrig hsome hdelay
    obtain ⟨batch, hbatch⟩ := Option.isSome_iff_exists.mp hsome
    simp only [pullAndMatchEventsLocked, htrig, hbatch]
    rw [if_neg (by simp)]
    rw [if_pos hdelay]
    rfl
  · intro h
    have hcond : result ≠ PullResult.PULL_RESULT_SUCCESS ∨ allData.length = 0 := by
      rcases h with h1 | h1
      · exact Or.inl h1
      · exact Or.inr (by simp [h1])
    simp only [onDataPulled]
    rw [if_pos hcond]
  · intro h1 h2 h3
    have hcond : ¬(result ≠ PullResult.PULL_RESULT_SUCCESS ∨ allData.length = 0) := by
      rintro (hc | hc)
      · exact hc h1
      · exact h2 (List.length_eq_zero.mp hc)
    simp only [onDataPulled]
    rw [if_neg hcond]
    rw [if_pos h3]
    rfl

/-- C7: in the serialized report, every past bucket whose width equals
bucketSizeNs is emitted with
`bucket_num = (bucketEndNs - timeBaseNs) / bucketSizeNs - 1` and
without explicit start or end times, while every past bucket with a
different width is emitted with explicit start and end millisecond
timestamps and without a bucket_num. -/
theorem claim_C7 (p : GaugeMetricProducer) (bucket : GaugeBucket) :
    (bucket.mBucketEndNs - bucket.mBucketStartNs = p.mBucketSizeNs →
      writeBucketInfo p bucket =
        ProtoItem.bucketNum
            ((bucket.mBucketEndNs - p.mTimeBaseNs).tdiv p.mBucketSizeNs - 1) ::
          bucket.mAggregatedAtoms.map
            (fun kv => ProtoItem.aggregatedAtom kv.1 kv.2) ∧
      (∀ v, ProtoItem.startBucketElapsedMillis v ∉ writeBucketInfo p bucket) ∧
      (∀ v, ProtoItem.endBucketElapsedMillis v ∉ writeBucketInfo p bucket)) ∧
    (bucket.mBucketEndNs - bucket.mBucketStartNs ≠ p.mBucketSizeNs →
      writeBucketInfo p bucket =
        ProtoItem.startBucketElapsedMillis (bucket.mBucketStartNs.tdiv 1000000) ::
          ProtoItem.endBucketElapsedMillis (bucket.mBucketEndNs.tdiv 1000000) ::
            bucket.mAggregatedAtoms.map
              (fun kv => ProtoItem.aggregatedAtom kv.1 kv.2) ∧
      (∀ v, ProtoItem.bucketNum v ∉ writeBucketInfo p bucket)) := by
  constructor
  · intro h
    have heq : writeBucketInfo p bucket =
        ProtoItem.bucketNum
            ((bucket.mBucketEndNs - p.mTimeBaseNs).tdiv p.mBucketSizeNs - 1) ::
          bucket.mAggregatedAtoms.map
            (fun kv => ProtoItem.aggregatedAtom kv.1 kv.2) := by
      simp only [writeBucketInfo, getBucketNumFromEndTimeNs]
      rw [if_neg (by simp [h])]
      rfl
    refine ⟨heq, ?_, ?_⟩
    · intro v
      rw [heq]
      simp only [List.mem_cons, List.mem_map]
      rintro (hc | ⟨kv, _, hc⟩) <;> cases hc
    · intro v
      rw [heq]
      simp only [List.mem_cons, List.mem_map]
      rintro (hc | ⟨kv, _, hc⟩) <;> cases hc
  · intro h
    have heq : writeBucketInfo p bucket =
        ProtoItem.startBucketElapsedMillis (bucket.mBucketStartNs.tdiv 1000000) ::
          ProtoItem.endBucketElapsedMillis (bucket.mBucketEndNs.tdiv 1000000) ::
            bucket.mAggregatedAtoms.map
              (fun kv => ProtoItem.aggregatedAtom kv.1 kv.2) := by
      simp only [writeBucketInfo, nanoToMillis]
      rw [if_pos h]
      rfl
    refine ⟨heq, ?_⟩
    intro v
    rw [heq]
    simp only [List.mem_cons, List.mem_map]
    rintro (hc | hc | ⟨kv, _, hc⟩) <;> cases hc

end Statsd

namespace Statsd

theorem ite_lt_eq_min (a b : Int) : (if a < b then a else b) = min a b := by
  split
  · exact (min_eq_left (le_of_lt (by assumption))).symm
  · exact (min_eq_right (le_of_not_lt (by assumption))).symm

/-- C2: flushCurrentBucket closes the bucket at
`min(eventTimeNs, fullBucketEndNs)`; when the closed width reaches
minBucketSizeNs it appends, for each dimension of the current sliced
bucket, the bucket with its atoms grouped by AtomDimensionKey and
their timestamp lists to pastBuckets[dim] (other dimensions
untouched, skipped buckets untouched); otherwise, and only while the
producer is active, it appends a SkippedBucket carrying a
BucketTooSmall drop event stamped at eventTimeNs (the drop event is
omitted when the drop-event vector is at its cap of 10); consequently
no closed bucket's data reaches both pastBuckets and skippedBuckets. -/
theorem claim_C2 (p : GaugeMetricProducer) (eventTimeNs nextBucketStartTimeNs : Int)
    (hnodup : (p.mCurrentSlicedBucket.map Prod.fst).Nodup) :
    (min eventTimeNs (getCurrentBucketEndTimeNs p) - p.mCurrentBucketStartTimeNs ≥
        p.mMinBucketSizeNs →
      (∀ kv ∈ p.mCurrentSlicedBucket,
        lookupList
            (flushCurrentBucketLocked p eventTimeNs
              nextBucketStartTimeNs).st.mPastBuckets kv.1 =
          some (getAtKey p.mPastBuckets kv.1 ++
            [{ mBucketStartNs := p.mCurrentBucketStartTimeNs
               mBucketEndNs := min eventTimeNs (getCurrentBucketEndTimeNs p)
               mAggregatedAtoms := aggregateGaugeAtoms p.mAtomId kv.2 }])) ∧
      (∀ k, k ∉ p.mCurrentSlicedBucket.map Prod.fst →
        lookupList
            (flushCurrentBucketLocked p eventTimeNs
              nextBucketStartTimeNs).st.mPastBuckets k =
          lookupList p.mPastBuckets k) ∧
      (flushCurrentBucketLocked p eventTimeNs
        nextBucketStartTimeNs).st.mSkippedBuckets = p.mSkippedBuckets) ∧
    (min eventTimeNs (getCurrentBucketEndTimeNs p) - p.mCurrentBucketStartTimeNs <
        p.mMinBucketSizeNs → p.mIsActive = true →
      (flushCurrentBucketLocked p eventTimeNs
        nextBucketStartTimeNs).st.mPastBuckets = p.mPastBuckets ∧
      (flushCurrentBucketLocked p eventTimeNs
        nextBucketStartTimeNs).st.mSkippedBuckets =
        p.mSkippedBuckets ++
          [{ bucketStartTimeNs := p.mCurrentBucketStartTimeNs
             bucketEndTimeNs := min eventTimeNs (getCurrentBucketEndTimeNs p)
             dropEvents := p.mCurrentSkippedBucket.dropEvents ++
               (if p.mCurrentSkippedBucket.dropEvents.length < 10 then
                 [{ reason := BucketDropReason.BUCKET_TOO_SMALL
                    dropTimeNs := eventTimeNs }]
               else []) }]) ∧
    (min eventTimeNs (getCurrentBucketEndTimeNs p) - p.mCurrentBucketStartTimeNs <
        p.mMinBucketSizeNs → p.mIsActive = false →
      (flushCurrentBucketLocked p eventTimeNs
        nextBucketStartTimeNs).st.mPastBuckets = p.mPastBuckets ∧
      (flushCurrentBucketLocked p eventTimeNs
        nextBucketStartTimeNs).st.mSkippedBuckets = p.mSkippedBuckets) ∧
    ¬((flushCurrentBucketLocked p eventTimeNs
          nextBucketStartTimeNs).st.mPastBuckets ≠ p.mPastBuckets ∧
      (flushCurrentBucketLocked p eventTimeNs
          nextBucketStartTimeNs).st.mSkippedBuckets ≠ p.mSkippedBuckets) := by
  refine ⟨?_, ?_, ?_, ?_⟩
  · intro h
    refine ⟨?_, ?_, ?_⟩
    · intro kv hkv
      simp only [flushCurrentBucketLocked, ite_lt_eq_min]
      rw [if_pos h]
      exact lookup_foldl_pushAt_mem
        (fun slice =>
          { mBucketStartNs := p.mCurrentBucketStartTimeNs
            mBucketEndNs := min eventTimeNs (getCurrentBucketEndTimeNs p)
            mAggregatedAtoms := aggregateGaugeAtoms p.mAtomId slice.2 })
        p.mCurrentSlicedBucket hnodup p.mPastBuckets kv hkv
    · intro k hk
      simp only [flushCurrentBucketLocked, ite_lt_eq_min]
      rw [if_pos h]
      exact lookup_foldl_pushAt_not_mem
        (fun slice =>
          { mBucketStartNs := p.mCurrentBucketStartTimeNs
            mBucketEndNs := min eventTimeNs (getCurrentBucketEndTimeNs p)
            mAggregatedAtoms := aggregateGaugeAtoms p.mAtomId slice.2 })
        p.mCurrentSlicedBucket p.mPastBuckets k hk
    · simp only [flushCurrentBucketLocked, ite_lt_eq_min]
      rw [if_pos h]
  · intro h hact
    constructor
    · simp only [flushCurrentBucketLocked, ite_lt_eq_min]
      rw [if_neg (not_le.mpr h)]
    · simp only [flushCurrentBucketLocked, ite_lt_eq_min]
      rw [if_neg (not_le.mpr h)]
      by_cases hcap : p.mCurrentSkippedBucket.dropEvents.length < 10
      · have hm : maxDropEventsReached p = false := by
          simp only [maxDropEventsReached, decide_eq_false_iff_not]
          omega
        simp [hm, hact, hcap, buildDropEvent]
      · have hm : maxDropEventsReached p = true := by
          simp only [maxDropEventsReached, decide_eq_true_eq]
          omega
        simp [hm, hact, hcap]
  · intro h hinact
    constructor
    · simp only [flushCurrentBucketLocked, ite_lt_eq_min]
      rw [if_neg (not_le.mpr h)]
    · simp only [flushCurrentBucketLocked, ite_lt_eq_min]
      rw [if_neg (not_le.mpr h)]
      simp [hinact]
  · rintro ⟨hpast, hskip⟩
    by_cases h : min eventTimeNs (getCurrentBucketEndTimeNs p) -
        p.mCurrentBucketStartTimeNs ≥ p.mMinBucketSizeNs
    · refine hskip ?_
      simp only [flushCurrentBucketLocked, ite_lt_eq_min]
      rw [if_pos h]
    · refine hpast ?_
      simp only [flushCurrentBucketLocked, ite_lt_eq_min]
      rw [if_neg h]

end Statsd

namespace Statsd

/-- Iterated pull attempts at the given timestamps, threading the
producer state. -/
def applyPulls (fuel : Nat) (env : Env) (p : GaugeMetricProducer)
    (ts : List Int) : GaugeMetricProducer :=
  ts.foldl (fun q t => (pullAndMatchEventsLocked fuel env q t).st) p

/-- C4: under RANDOM_ONE_SAMPLE every producer operation preserves the
at-most-one-gauge-atom-per-dimension bound on the current sliced
bucket; for pull-mode producers pullAndMatch triggers the puller only
when the current sliced bucket is empty, so a pull against a non-empty
bucket is a complete no-op; hence any number of pullAndMatch
invocations within one bucket while the bucket is non-empty append
zero additional atoms. -/
theorem claim_C4 (fuel : Nat) (env : Env) (p : GaugeMetricProducer)
    (hR1S : p.mSamplingType = SamplingType.RANDOM_ONE_SAMPLE) :
    (atMostOneAtomPerDimension p →
      ∀ op : GaugeOp, atMostOneAtomPerDimension (applyOp fuel env p op).st) ∧
    (isPulled p = true → p.mCurrentSlicedBucket ≠ [] →
      ∀ t : Int, pullAndMatchEventsLocked fuel env p t = ⟨p, [], []⟩) ∧
    (isPulled p = true → p.mCurrentSlicedBucket ≠ [] →
      ∀ ts : List Int, applyPulls fuel env p ts = p) := by
  have hsingle : p.mCurrentSlicedBucket ≠ [] →
      ∀ t : Int, pullAndMatchEventsLocked fuel env p t = ⟨p, [], []⟩ := by
    intro hne t
    have hemp : p.mCurrentSlicedBucket.isEmpty = false := by
      cases hb : p.mCurrentSlicedBucket with
      | nil => exact absurd hb hne
      | cons a l => rfl
    cases fuel with
    | zero => rfl
    | succ n => simp [pullAndMatchEventsLocked, hR1S, hemp]
  refine ⟨?_, ?_, ?_⟩
  · intro hinv op
    exact (r1sPred_op_preserved fuel env p op ⟨hR1S, hinv⟩).2
  · intro _ hne t
    exact hsingle hne t
  · intro _ hne ts
    induction ts with
    | nil => rfl
    | cons t rest ih =>
      simp only [applyPulls, List.foldl_cons] at ih ⊢
      rw [show (pullAndMatchEventsLocked fuel env p t).st = p from
        congrArg GaugeStepOut.st (hsingle hne t)]
      exact ih

/-- C3: hitGuardRail returns true exactly when the key is not already
present and the resulting distinct-dimension count would exceed
dimensionHardLimit (under the configuration invariant
softLimit ≤ hardLimit); returning true latches the persistent
dimension-guardrail-hit flag; over every sequence of operations the
current sliced bucket keeps at most dimensionHardLimit distinct
dimension keys; and on the append path a guardrail hit makes the
event rejected, with the flag latched. -/
theorem claim_C3 (p : GaugeMetricProducer) (k : MetricDimensionKey)
    (hconf : p.mDimensionSoftLimit ≤ p.mDimensionHardLimit) :
    ((hitGuardRailLocked p k).1 = true ↔
      (lookupList p.mCurrentSlicedBucket k = none ∧
        p.mCurrentSlicedBucket.length + 1 > p.mDimensionHardLimit)) ∧
    ((hitGuardRailLocked p k).1 = true →
      (hitGuardRailLocked p k).2.1.mDimensionGuardrailHit = true) ∧
    (∀ (fuel : Nat) (env : Env) (ops : List GaugeOp), dimensionGuardrailInv p →
      dimensionGuardrailInv (applyOps fuel env p ops)) ∧
    (∀ (fuel : Nat) (env : Env) (event : LogEvent),
      ¬(p.mPullTagId = -1 ∧ p.mSamplingPercentage < 100 ∧
          env.keepSample event = false) →
      ¬(event.elapsedTimestampNs < p.mCurrentBucketStartTimeNs) →
      ¬((flushIfNeededLocked p event.elapsedTimestampNs).st.mTriggerAtomId =
          event.tagId) →
      ¬((lookupList (flushIfNeededLocked
            p event.elapsedTimestampNs).st.mCurrentSlicedBucket k).isSome ∧
          (flushIfNeededLocked p event.elapsedTimestampNs).st.mSamplingType =
            SamplingType.RANDOM_ONE_SAMPLE) →
      (hitGuardRailLocked (flushIfNeededLocked
          p event.elapsedTimestampNs).st k).1 = true →
      (onMatchedLogEventInternalLocked (fuel + 1) env p k true
          event).st.mCurrentSlicedBucket =
        (flushIfNeededLocked p event.elapsedTimestampNs).st.mCurrentSlicedBucket ∧
      (onMatchedLogEventInternalLocked (fuel + 1) env p k true
          event).st.mDimensionGuardrailHit = true) := by
  refine ⟨hitGuardRail_true_iff p k hconf, hitGuardRail_true_latches p k, ?_, ?_⟩
  · intro fuel env ops hinv
    exact (applyOps_preserves
      (fun q => q.mDimensionSoftLimit ≤ q.mDimensionHardLimit ∧
        dimensionGuardrailInv q)
      guardrailPred_op_preserved fuel env p ops ⟨hconf, hinv⟩).2
  · intro fuel env event h1 h2 h3 h4 hhit
    simp only [onMatchedLogEventInternalLocked]
    rw [if_neg (by simp : ¬(true = false))]
    rw [if_neg h1]
    rw [if_neg h2]
    rw [if_neg h3]
    rw [if_neg h4]
    rw [if_pos hhit]
    exact ⟨hitGuardRail_bucket _ _, hitGuardRail_true_latches _ _ hhit⟩

end Statsd

namespace Statsd

/-- Whether a value is numeric (integer, long, float or double). -/
def isNumericValue : Value → Bool
  | Value.vInt _ => true
  | Value.vLong _ => true
  | Value.vFloat _ => true
  | Value.vDouble _ => true
  | _ => false

/-- The value the append path reports to anomaly trackers for a
projected field list: the first field's INT or LONG payload, 0 for
any other type. -/
def anomalyGaugeValue (fields : List FieldValue) : Int :=
  match fields with
  | [] => 0
  | fv :: _ => gaugeLongValue fv.mValue

/-- A concrete push-mode gauge producer configuration used by the
closed evaluation theorems. -/
def baseGaugeProducer : GaugeMetricProducer :=
  { mMetricId := 7, mTimeBaseNs := 0, mBucketSizeNs := 100,
    mCurrentBucketStartTimeNs := 0, mCurrentBucketNum := 0,
    mCondition := ConditionState.kTrue, mConditionSliced := false,
    mIsActive := true, mPullTagId := -1, mTriggerAtomId := -1, mAtomId := 42,
    mMinBucketSizeNs := 0, mSamplingType := SamplingType.FIRST_N_SAMPLES,
    mMaxPullDelayNs := 50, mDimensionSoftLimit := 10, mDimensionHardLimit := 20,
    mGaugeAtomsPerDimensionLimit := 10, mSamplingPercentage := 100,
    mShouldUseNestedDimensions := false, mFieldMatchers := [],
    mDimensionsInWhat := [], mAnomalyTrackerCount := 0,
    mCurrentSlicedBucket := [], mCurrentSlicedBucketForAnomaly := [],
    mPastBuckets := [], mSkippedBuckets := [],
    mCurrentSkippedBucket := SkippedBucket.reset,
    mDimensionGuardrailHit := false, mHasHitGuardrail := false }

/-- A concrete dimension key. -/
def keyA : MetricDimensionKey := ⟨⟨[⟨1, Value.vInt 1⟩]⟩, ⟨[]⟩⟩

/-- A second, distinct concrete dimension key. -/
def keyB : MetricDimensionKey := ⟨⟨[⟨1, Value.vInt 2⟩]⟩, ⟨[]⟩⟩

/-- A concrete environment: everything matches, keys map to keyA,
no transformation, identity timestamp truncation, no pull data. -/
def baseEnv : Env :=
  { matchEvent := fun _ => (MatchingState.kMatched, none)
    extractKey := fun _ => keyA
    slicedCondition := fun _ => true
    keepSample := fun _ => true
    truncateTimestamp := fun e => e.elapsedTimestampNs
    pullResult := fun _ => none
    nowNs := 0 }

/-- C8 counterexample: the claim states trackers are informed iff the
appended atom has exactly one numeric field; but appending an atom
whose single field is a string (zero numeric fields) still informs
the attached tracker (with value 0), so the claim as stated is false. -/
theorem claim_C8_counterexample :
    (onMatchedLogEventInternalLocked 1 baseEnv
        { baseGaugeProducer with mAnomalyTrackerCount := 1 } keyA true
        { tagId := 100, elapsedTimestampNs := 5,
          values := [{ mField := 1, mValue := Value.vString "x" }] }).anomaly ≠ [] ∧
    (∀ kv ∈ (onMatchedLogEventInternalLocked 1 baseEnv
        { baseGaugeProducer with mAnomalyTrackerCount := 1 } keyA true
        { tagId := 100, elapsedTimestampNs := 5,
          values := [{ mField := 1, mValue := Value.vString "x" }] }).st.mCurrentSlicedBucket,
      ∀ a ∈ kv.2,
        (a.mFields.filter (fun fv => isNumericValue fv.mValue)).length = 0) := by
  decide

/-- C8 (amended): on the append path, when the append is actually
performed, each of the attached anomaly trackers is informed with
(eventTime, bucketNum, metricId, dim, value) if and only if the
appended gauge atom has exactly one field (of any type); the value is
that field's integer payload when it is an INT or LONG and 0
otherwise. -/
theorem claim_C8_amended (fuel : Nat) (env : Env) (p : GaugeMetricProducer)
    (eventKey : MetricDimensionKey) (event : LogEvent) (p1 : GaugeMetricProducer)
    (hp1 : p1 = (flushIfNeededLocked p event.elapsedTimestampNs).st)
    (h1 : ¬(p.mPullTagId = -1 ∧ p.mSamplingPercentage < 100 ∧
        env.keepSample event = false))
    (h2 : ¬(event.elapsedTimestampNs < p.mCurrentBucketStartTimeNs))
    (h3 : ¬(p1.mTriggerAtomId = event.tagId))
    (h4 : ¬((lookupList p1.mCurrentSlicedBucket eventKey).isSome ∧
        p1.mSamplingType = SamplingType.RANDOM_ONE_SAMPLE))
    (h5 : (hitGuardRailLocked p1 eventKey).1 = false)
    (h6 : (getAtKey (ensureKey p1.mCurrentSlicedBucket eventKey) eventKey).length <
        p1.mGaugeAtomsPerDimensionLimit) :
    (onMatchedLogEventInternalLocked (fuel + 1) env p eventKey true event).anomaly =
      (if p1.mAnomalyTrackerCount > 0 ∧ (getGaugeFields p1 event).length = 1 then
        List.replicate p1.mAnomalyTrackerCount
          { eventTimeNs := event.elapsedTimestampNs
            bucketNum := p1.mCurrentBucketNum
            metricId := p1.mMetricId
            key := eventKey
            value := anomalyGaugeValue (getGaugeFields p1 event) }
      else []) := by
  subst hp1
  have h5' : ¬((hitGuardRailLocked
      (flushIfNeededLocked p event.elapsedTimestampNs).st eventKey).1 = true) := by
    simp [h5]
  simp only [onMatchedLogEventInternalLocked]
  rw [if_neg (by simp : ¬(true = false))]
  rw [if_neg h1]
  rw [if_neg h2]
  rw [if_neg h3]
  rw [if_neg h4]
  rw [if_neg h5']
  rw [hitGuardRail_false_state _ _ h5]
  rw [if_neg (not_le.mpr h6)]
  rw [flushIfNeeded_anomaly]
  rw [List.nil_append]
  rfl

/-- C9 counterexample: the claim states that after every
erase_data=true dump the dimension-guardrail-hit flag is false; but
when the post-flush past buckets and skipped buckets are both empty
the method returns before the erase step, so a latched flag survives:
here a producer with the flag latched and nothing to report still has
the flag set after an erase_data=true dump. -/
theorem claim_C9_counterexample :
    (onDumpReportLocked
        { baseGaugeProducer with mDimensionGuardrailHit := true, mIsActive := false }
        5 false true).1.st.mDimensionGuardrailHit = true := by
  decide

/-- C9 (amended): after every onDumpReport call with erase_data=true
the past-bucket map and the skipped-bucket list are empty; the
dimension-guardrail-hit flag is cleared provided the post-flush past
or skipped buckets were non-empty, and is left at its previous value
when both were empty (the early-return path). -/
theorem claim_C9_amended (p : GaugeMetricProducer) (dumpTimeNs : Int)
    (includeCurrentPartialBucket : Bool) (p1 : GaugeMetricProducer)
    (hp1 : p1 = (if includeCurrentPartialBucket then flushLocked p dumpTimeNs
        else flushIfNeededLocked p dumpTimeNs).st) :
    (onDumpReportLocked p dumpTimeNs includeCurrentPartialBucket
        true).1.st.mPastBuckets = [] ∧
    (onDumpReportLocked p dumpTimeNs includeCurrentPartialBucket
        true).1.st.mSkippedBuckets = [] ∧
    (¬(p1.mPastBuckets = [] ∧ p1.mSkippedBuckets = []) →
      (onDumpReportLocked p dumpTimeNs includeCurrentPartialBucket
          true).1.st.mDimensionGuardrailHit = false) ∧
    (p1.mPastBuckets = [] ∧ p1.mSkippedBuckets = [] →
      (onDumpReportLocked p dumpTimeNs includeCurrentPartialBucket
          true).1.st.mDimensionGuardrailHit = p1.mDimensionGuardrailHit) := by
  subst hp1
  have hempty : ∀ l : List (MetricDimensionKey × List GaugeBucket),
      l.isEmpty = true ↔ l = [] := by
    intro l
    cases l <;> simp
  have hempty2 : ∀ l : List SkippedBucket, l.isEmpty = true ↔ l = [] := by
    intro l
    cases l <;> simp
  by_cases hcase :
      (if includeCurrentPartialBucket then flushLocked p dumpTimeNs
        else flushIfNeededLocked p dumpTimeNs).st.mPastBuckets = [] ∧
      (if includeCurrentPartialBucket then flushLocked p dumpTimeNs
        else flushIfNeededLocked p dumpTimeNs).st.mSkippedBuckets = []
  · simp only [onDumpReportLocked]
    rw [if_pos ⟨(hempty _).mpr hcase.1, (hempty2 _).mpr hcase.2⟩]
    exact ⟨hcase.1, hcase.2, fun hc => absurd hcase hc, fun _ => rfl⟩
  · simp only [onDumpReportLocked]
    rw [if_neg (by
      rintro ⟨ha, hb⟩
      exact hcase ⟨(hempty _).mp ha, (hempty2 _).mp hb⟩)]
    exact ⟨rfl, rfl, fun _ => rfl, fun hc => absurd hc hcase⟩

end Statsd

namespace Statsd

/-- A producer holding two identical-valued atoms under one dimension. -/
def flushSampleProducer : GaugeMetricProducer :=
  { baseGaugeProducer with
      mCurrentSlicedBucket :=
        [(keyA, [⟨[⟨5, Value.vInt 3⟩], 1⟩, ⟨[⟨5, Value.vInt 3⟩], 4⟩])] }

/-- A producer whose minimum bucket size exceeds the partial width. -/
def minBucketProducer : GaugeMetricProducer :=
  { baseGaugeProducer with mMinBucketSizeNs := 50 }

/-- A producer at its dimension hard limit with one key present. -/
def guardrailProducer : GaugeMetricProducer :=
  { baseGaugeProducer with
      mDimensionSoftLimit := 1
      mDimensionHardLimit := 1
      mCurrentSlicedBucket := [(keyA, [⟨[⟨5, Value.vInt 3⟩], 1⟩])] }

/-- A pull-mode random-one-sample producer with a non-empty bucket. -/
def randomOneSampleProducer : GaugeMetricProducer :=
  { baseGaugeProducer with
      mSamplingType := SamplingType.RANDOM_ONE_SAMPLE
      mPullTagId := 9
      mCurrentSlicedBucket := [(keyA, [⟨[⟨5, Value.vInt 3⟩], 1⟩])] }

/-- A pull-mode producer. -/
def pullProducer : GaugeMetricProducer :=
  { baseGaugeProducer with mPullTagId := 9 }

/-- An environment whose pull returns one event and whose clock makes
every pull 97 ns late. -/
def latePullEnv : Env :=
  { baseEnv with
      pullResult := fun _ => some [⟨100, 2, [⟨5, Value.vInt 1⟩]⟩]
      nowNs := 100 }

/-- A producer whose current bucket started at 100 ns. -/
def lateBucketProducer : GaugeMetricProducer :=
  { baseGaugeProducer with mCurrentBucketStartTimeNs := 100 }

/-- A producer with one attached anomaly tracker. -/
def anomalyProducer : GaugeMetricProducer :=
  { baseGaugeProducer with mAnomalyTrackerCount := 1 }

/-- A producer with a past bucket and a latched guardrail flag. -/
def latchedPastProducer : GaugeMetricProducer :=
  { baseGaugeProducer with
      mPastBuckets := [(keyA, [⟨0, 100, []⟩])]
      mDimensionGuardrailHit := true }

theorem claim_C1_witness :
    flushIfNeededLocked baseGaugeProducer 5 = ⟨baseGaugeProducer, [], []⟩ ∧
    flushIfNeededLocked baseGaugeProducer 250 =
      ⟨{ (flushCurrentBucketLocked baseGaugeProducer 250 200).st with
          mCurrentBucketNum := 2 },
       (flushCurrentBucketLocked baseGaugeProducer 250 200).stats,
       (flushCurrentBucketLocked baseGaugeProducer 250 200).anomaly⟩ :=
  ⟨(claim_C1 baseGaugeProducer 5).1 (by decide),
   (claim_C1 baseGaugeProducer 250).2 (by decide)⟩

theorem claim_C2_witness :
    lookupList
        (flushCurrentBucketLocked flushSampleProducer 100 100).st.mPastBuckets keyA =
      some [{ mBucketStartNs := 0, mBucketEndNs := 100,
              mAggregatedAtoms := [(⟨42, ⟨[⟨5, Value.vInt 3⟩]⟩⟩, [1, 4])] }] ∧
    (flushCurrentBucketLocked minBucketProducer 5 5).st.mSkippedBuckets =
      [{ bucketStartTimeNs := 0, bucketEndTimeNs := 5,
         dropEvents := [⟨BucketDropReason.BUCKET_TOO_SMALL, 5⟩] }] :=
  ⟨((claim_C2 flushSampleProducer 100 100 (by decide)).1 (by decide)).1
      ⟨keyA, [⟨[⟨5, Value.vInt 3⟩], 1⟩, ⟨[⟨5, Value.vInt 3⟩], 4⟩]⟩ (by decide),
   (((claim_C2 minBucketProducer 5 5 (by decide)).2.1 (by decide) (by decide)).2)⟩

theorem claim_C3_witness :
    guardrailProducer.mDimensionSoftLimit ≤ guardrailProducer.mDimensionHardLimit ∧
    (hitGuardRailLocked guardrailProducer keyB).1 = true ∧
    (hitGuardRailLocked guardrailProducer keyB).2.1.mDimensionGuardrailHit = true ∧
    dimensionGuardrailInv
      (applyOps 2 baseEnv guardrailProducer
        [GaugeOp.matchedLogEvent ⟨100, 5, [⟨1, Value.vInt 9⟩]⟩]) := by
  have h := claim_C3 guardrailProducer keyB (by decide)
  have hhit := h.1.mpr ⟨by decide, by decide⟩
  exact ⟨by decide, hhit, h.2.1 hhit,
    h.2.2.1 2 baseEnv [GaugeOp.matchedLogEvent ⟨100, 5, [⟨1, Value.vInt 9⟩]⟩]
      ⟨by decide, by decide⟩⟩

theorem claim_C4_witness :
    randomOneSampleProducer.mSamplingType = SamplingType.RANDOM_ONE_SAMPLE ∧
    randomOneSampleProducer.mCurrentSlicedBucket ≠ [] ∧
    pullAndMatchEventsLocked 3 baseEnv randomOneSampleProducer 5 =
      ⟨randomOneSampleProducer, [], []⟩ ∧
    applyPulls 3 baseEnv randomOneSampleProducer [1, 2, 3] =
      randomOneSampleProducer ∧
    atMostOneAtomPerDimension
      (applyOp 3 baseEnv randomOneSampleProducer
        (GaugeOp.matchedLogEvent ⟨100, 6, [⟨1, Value.vInt 9⟩]⟩)).st := by
  have h := claim_C4 3 baseEnv randomOneSampleProducer (by decide)
  exact ⟨by decide, by decide,
    h.2.1 (by decide) (by decide) 5,
    h.2.2 (by decide) (by decide) [1, 2, 3],
    h.1 (show atMostOneAtomPerDimension randomOneSampleProducer by
        unfold atMostOneAtomPerDimension
        decide)
      (GaugeOp.matchedLogEvent ⟨100, 6, [⟨1, Value.vInt 9⟩]⟩)⟩

theorem claim_C5_witness :
    pullAndMatchEventsLocked 3 latePullEnv pullProducer 3 =
      ⟨pullProducer, [StatsEvent.pullDelay 9 97, StatsEvent.pullExceedMaxDelay 9], []⟩ ∧
    onDataPulled 3 latePullEnv pullProducer [⟨100, 2, [⟨5, Value.vInt 1⟩]⟩]
        PullResult.PULL_RESULT_FAIL 3 = ⟨pullProducer, [], []⟩ ∧
    onDataPulled 3 latePullEnv pullProducer [⟨100, 2, [⟨5, Value.vInt 1⟩]⟩]
        PullResult.PULL_RESULT_SUCCESS 3 =
      ⟨pullProducer, [StatsEvent.pullDelay 9 97, StatsEvent.pullExceedMaxDelay 9], []⟩ :=
  ⟨(claim_C5 2 3 latePullEnv pullProducer 3 3 [⟨100, 2, [⟨5, Value.vInt 1⟩]⟩]
      PullResult.PULL_RESULT_FAIL).1 (by decide) (by decide) (by decide),
   (claim_C5 2 3 latePullEnv pullProducer 3 3 [⟨100, 2, [⟨5, Value.vInt 1⟩]⟩]
      PullResult.PULL_RESULT_FAIL).2.1 (Or.inl (by decide)),
   (claim_C5 2 3 latePullEnv pullProducer 3 3 [⟨100, 2, [⟨5, Value.vInt 1⟩]⟩]
      PullResult.PULL_RESULT_SUCCESS).2.2 rfl (by decide) (by decide)⟩

theorem claim_C6_witness :
    (5 : Int) < lateBucketProducer.mCurrentBucketStartTimeNs ∧
    onMatchedLogEventInternalLocked 3 baseEnv lateBucketProducer keyA true
        ⟨100, 5, [⟨1, Value.vInt 9⟩]⟩ = ⟨lateBucketProducer, [], []⟩ :=
  ⟨by decide,
   claim_C6 3 baseEnv lateBucketProducer keyA true
     ⟨100, 5, [⟨1, Value.vInt 9⟩]⟩ (by decide)⟩

theorem claim_C7_witness :
    writeBucketInfo baseGaugeProducer ⟨100, 200, []⟩ = [ProtoItem.bucketNum 1] ∧
    writeBucketInfo baseGaugeProducer ⟨100, 150, []⟩ =
      [ProtoItem.startBucketElapsedMillis 0, ProtoItem.endBucketElapsedMillis 0] ∧
    (∀ v, ProtoItem.bucketNum v ∉ writeBucketInfo baseGaugeProducer ⟨100, 150, []⟩) :=
  ⟨((claim_C7 baseGaugeProducer ⟨100, 200, []⟩).1 (by decide)).1,
   ((claim_C7 baseGaugeProducer ⟨100, 150, []⟩).2 (by decide)).1,
   ((claim_C7 baseGaugeProducer ⟨100, 150, []⟩).2 (by decide)).2⟩

theorem claim_C8_witness :
    (onMatchedLogEventInternalLocked 1 baseEnv anomalyProducer keyA true
        ⟨100, 5, [⟨1, Value.vInt 3⟩]⟩).anomaly =
      [{ eventTimeNs := 5, bucketNum := 0, metricId := 7, key := keyA, value := 3 }] := by
  have h := claim_C8_amended 0 baseEnv anomalyProducer keyA
    ⟨100, 5, [⟨1, Value.vInt 3⟩]⟩
    ((flushIfNeededLocked anomalyProducer 5).st) rfl
    (by decide) (by decide) (by decide) (by decide) (by decide) (by decide)
  exact h.trans (by decide)

theorem claim_C9_witness :
    (onDumpReportLocked latchedPastProducer 5 false true).1.st.mPastBuckets = [] ∧
    (onDumpReportLocked latchedPastProducer 5 false true).1.st.mSkippedBuckets = [] ∧
    (onDumpReportLocked latchedPastProducer 5 false
        true).1.st.mDimensionGuardrailHit = false := by
  have h := claim_C9_amended latchedPastProducer 5 false
    ((if (false : Bool) then flushLocked latchedPastProducer 5
      else flushIfNeededLocked latchedPastProducer 5).st) rfl
  exact ⟨h.1, h.2.1, h.2.2.1 (by decide)⟩

end Statsd
